import Mathlib

/-!
Verification development for the libnetlog parsing engine: a shallow
embedding of the taxonomies (`severity.cpp`, `device_types.cpp`), the
normalized record type (`log_entry.cpp`), the native parsers
(`cisco_ios_parser.cpp`, `generic_syslog_parser.cpp`,
`cisco_nxos_parser.cpp`, `cisco_asa_parser.cpp`, `base_parser.cpp`), the
Lua scripting bridge (`lua_engine.cpp`), and the registry/auto-detection
layer (`parser_factory.cpp`).

Modelling conventions:
- C++ `std::optional<T>` becomes `Option T`; a C++ exception escaping a
  function is modelled with `Except String`: `.error msg` is a thrown
  exception, `.ok` a normal return.
- `std::chrono::system_clock::time_point` is modelled as `Int`
  milliseconds since the Unix epoch (enough precision to expose the
  second-granularity truncation of `to_time_t`).
- Ambient effects (capture time `now`, the locale/timezone dependent
  `std::get_time`-based timestamp-string parsers of `base_parser.cpp` /
  `timestamp_parser.cpp`) are supplied through a `ParseEnv` record: the
  claims under study never constrain the values those produce.
- ECMAScript `std::regex` patterns are hand-compiled to a small
  backtracking matcher (`RE`) with the same leftmost-search and
  greedy/lazy backtracking order; every quantifier in the source
  patterns ranges over a single-character class, which the matcher
  supports exactly.
- Lua values are modelled by `LuaValue` with Lua's coercion rules for
  `lua_isstring` / `lua_isnumber` / `lua_tostring` / `lua_toboolean`
  (numbers are modelled as integers; the scripts' numeric fields in the
  claims at issue are integral).
-/

/-- Severity taxonomy from `severity.hpp` (RFC 3164 levels 0..7). -/
inductive Severity where
  | Emergency
  | Alert
  | Critical
  | Error
  | Warning
  | Notice
  | Info
  | Debug
deriving DecidableEq, Repr

/-- Numeric value of a severity (the enum's underlying `std::uint8_t`). -/
def Severity.toNat : Severity → Nat
  | .Emergency => 0
  | .Alert => 1
  | .Critical => 2
  | .Error => 3
  | .Warning => 4
  | .Notice => 5
  | .Info => 6
  | .Debug => 7

/-- Inverse of `Severity.toNat` on 0..7 (used to model `static_cast<Severity>`). -/
def severityOfNat : Nat → Severity
  | 0 => .Emergency
  | 1 => .Alert
  | 2 => .Critical
  | 3 => .Error
  | 4 => .Warning
  | 5 => .Notice
  | 6 => .Info
  | _ => .Debug

/-- The `to_string(Severity)` overload of `severity.cpp`. -/
def severity_to_string : Severity → String
  | .Emergency => "emergency"
  | .Alert => "alert"
  | .Critical => "critical"
  | .Error => "error"
  | .Warning => "warning"
  | .Notice => "notice"
  | .Info => "info"
  | .Debug => "debug"

/-- Device type taxonomy from `device_types.hpp`. -/
inductive DeviceType where
  | Unknown
  | CiscoIOS
  | CiscoIOSXE
  | CiscoNXOS
  | CiscoASA
  | GenericSyslog
  | Custom
deriving DecidableEq, Repr

/-- The `to_string(DeviceType)` overload of `device_types.cpp`. -/
def device_type_to_string : DeviceType → String
  | .Unknown => "unknown"
  | .CiscoIOS => "cisco-ios"
  | .CiscoIOSXE => "cisco-ios-xe"
  | .CiscoNXOS => "cisco-nx-os"
  | .CiscoASA => "cisco-asa"
  | .GenericSyslog => "generic-syslog"
  | .Custom => "custom"

/-- ASCII lower-casing, as `std::tolower` in the C locale. -/
def asciiLower (s : String) : String :=
  String.mk (s.data.map Char.toLower)

/-- The C++ `int` maximum, the overflow bound of `std::stoi`. -/
def intMax : Nat := 2147483647

/-- Model of `std::stoi`: skips leading spaces, accepts an optional sign,
then a nonempty digit run (ignoring any trailing junk); throws
`std::invalid_argument` when no digits are found and `std::out_of_range`
when the value does not fit in `int`. -/
def stoi (s : String) : Except String Int :=
  let chars := s.data.dropWhile (fun c => c = ' ' ∨ c = '\t')
  let signed : Bool × List Char :=
    match chars with
    | '-' :: rest => (true, rest)
    | '+' :: rest => (false, rest)
    | rest => (false, rest)
  let digits := signed.2.takeWhile Char.isDigit
  if digits.isEmpty then .error "stoi: invalid_argument"
  else
    let mag : Nat := digits.foldl (fun acc c => acc * 10 + (c.toNat - 48)) 0
    if signed.1 then
      if mag ≤ intMax + 1 then .ok (-(mag : Int)) else .error "stoi: out_of_range"
    else
      if mag ≤ intMax then .ok (mag : Int) else .error "stoi: out_of_range"

/-- Model of `std::stoul`: like `stoi` but unsigned range (64-bit
`unsigned long`); a leading minus sign wraps modulo 2^64 as in C++. -/
def stoul (s : String) : Except String Nat :=
  let chars := s.data.dropWhile (fun c => c = ' ' ∨ c = '\t')
  let signed : Bool × List Char :=
    match chars with
    | '-' :: rest => (true, rest)
    | '+' :: rest => (false, rest)
    | rest => (false, rest)
  let digits := signed.2.takeWhile Char.isDigit
  if digits.isEmpty then .error "stoul: invalid_argument"
  else
    let mag : Nat := digits.foldl (fun acc c => acc * 10 + (c.toNat - 48)) 0
    if mag < 2 ^ 64 then
      .ok (if signed.1 then (2 ^ 64 - mag) % 2 ^ 64 else mag)
    else .error "stoul: out_of_range"

/-- The `parse_severity(const std::string&)` overload of `severity.cpp`:
case-insensitive names and aliases, then a numeric fallback through
`std::stoi`; unrecognized input throws `std::invalid_argument`. -/
def parse_severity (severity_str : String) : Except String Severity :=
  let lower_str := asciiLower severity_str
  if lower_str = "emergency" ∨ lower_str = "emerg" then .ok .Emergency
  else if lower_str = "alert" then .ok .Alert
  else if lower_str = "critical" ∨ lower_str = "crit" then .ok .Critical
  else if lower_str = "error" ∨ lower_str = "err" then .ok .Error
  else if lower_str = "warning" ∨ lower_str = "warn" then .ok .Warning
  else if lower_str = "notice" ∨ lower_str = "note" then .ok .Notice
  else if lower_str = "info" ∨ lower_str = "informational" then .ok .Info
  else if lower_str = "debug" then .ok .Debug
  else
    match stoi severity_str with
    | .ok n =>
        if 0 ≤ n ∧ n ≤ 7 then .ok (severityOfNat n.toNat)
        else .error ("Invalid severity string: " ++ severity_str)
    | .error _ => .error ("Invalid severity string: " ++ severity_str)

/-- The `parse_severity(std::uint8_t)` overload of `severity.cpp`. -/
def parse_severity_num (severity_num : Nat) : Except String Severity :=
  if severity_num > 7 then .error "Invalid severity number"
  else .ok (severityOfNat severity_num)

/-- The `parse_device_type` function of `device_types.cpp`; unrecognized
input throws `std::invalid_argument`. -/
def parse_device_type (type_str : String) : Except String DeviceType :=
  let lower_str := asciiLower type_str
  if lower_str = "cisco-ios" ∨ lower_str = "ios" then .ok .CiscoIOS
  else if lower_str = "cisco-ios-xe" ∨ lower_str = "ios-xe" then .ok .CiscoIOSXE
  else if lower_str = "cisco-nx-os" ∨ lower_str = "nxos" ∨ lower_str = "nx-os" then .ok .CiscoNXOS
  else if lower_str = "cisco-asa" ∨ lower_str = "asa" then .ok .CiscoASA
  else if lower_str = "generic-syslog" ∨ lower_str = "syslog" then .ok .GenericSyslog
  else if lower_str = "custom" then .ok .Custom
  else if lower_str = "unknown" then .ok .Unknown
  else .error ("Invalid device type string: " ++ type_str)

/-- The normalized record type of `log_entry.hpp`. Timestamps are epoch
milliseconds; `metadata` is an association list standing for the
`unordered_map` (insert-or-replace keeps keys unique). -/
structure LogEntry where
  timestamp : Int := 0
  severity : Severity := .Info
  message : String := ""
  facility : String := ""
  hostname : String := ""
  process_name : String := ""
  process_id : Option Nat := none
  device_type : DeviceType := .Unknown
  raw_message : String := ""
  metadata : List (String × String) := []
deriving DecidableEq, Repr

/-- Insert-or-replace on the metadata association list, modelling
`metadata_[key] = value` on the `unordered_map`. -/
def metaSet (m : List (String × String)) (key value : String) : List (String × String) :=
  match m with
  | [] => [(key, value)]
  | (k, v) :: rest => if k = key then (k, value) :: rest else (k, v) :: metaSet rest key value

/-- `LogEntry::add_metadata`. -/
def LogEntry.add_metadata (e : LogEntry) (key value : String) : LogEntry :=
  { e with metadata := metaSet e.metadata key value }

/-- `LogEntry::get_metadata`. -/
def LogEntry.get_metadata (e : LogEntry) (key : String) : Option String :=
  (e.metadata.find? (fun kv => kv.1 = key)).map (·.2)

/-- `LogEntry::set_timestamp`. -/
def LogEntry.set_timestamp (e : LogEntry) (t : Int) : LogEntry := { e with timestamp := t }

/-- `LogEntry::set_severity`. -/
def LogEntry.set_severity (e : LogEntry) (s : Severity) : LogEntry := { e with severity := s }

/-- `LogEntry::set_message`. -/
def LogEntry.set_message (e : LogEntry) (m : String) : LogEntry := { e with message := m }

/-- `LogEntry::set_facility`. -/
def LogEntry.set_facility (e : LogEntry) (f : String) : LogEntry := { e with facility := f }

/-- `LogEntry::set_hostname`. -/
def LogEntry.set_hostname (e : LogEntry) (h : String) : LogEntry := { e with hostname := h }

/-- `LogEntry::set_process_name`. -/
def LogEntry.set_process_name (e : LogEntry) (p : String) : LogEntry := { e with process_name := p }

/-- `LogEntry::set_process_id`. -/
def LogEntry.set_process_id (e : LogEntry) (p : Nat) : LogEntry := { e with process_id := some p }

/-- `LogEntry::set_device_type`. -/
def LogEntry.set_device_type (e : LogEntry) (d : DeviceType) : LogEntry := { e with device_type := d }

/-- `LogEntry::set_raw_message`. -/
def LogEntry.set_raw_message (e : LogEntry) (r : String) : LogEntry := { e with raw_message := r }

/-- `LogEntry::is_valid` (`log_entry.cpp`): the sole requirement is a
non-empty message. -/
def LogEntry.is_valid (e : LogEntry) : Bool := e.message ≠ ""

/-- `BaseParser::create_log_entry` (`base_parser.cpp`): constructs the
entry from timestamp, severity, message and the parser's device type,
then stamps the raw message. -/
def create_log_entry (device_type : DeviceType) (timestamp : Int) (severity : Severity)
    (message raw_message : String) : LogEntry :=
  { timestamp := timestamp, severity := severity, message := message,
    device_type := device_type, raw_message := raw_message }

/-- Character class tests mirroring ECMAScript `std::regex` classes. -/
def isWordCh (c : Char) : Bool := c.isAlpha ∨ c.isDigit ∨ c = '_'

/-- ECMAScript white space class `\s` (ASCII portion; the inputs here are ASCII). -/
def isSpaceCh (c : Char) : Bool :=
  c = ' ' ∨ c = '\t' ∨ c = '\n' ∨ c = '\x0b' ∨ c = '\x0c' ∨ c = '\r'

/-- ECMAScript `.`: any character except line terminators. -/
def isDotCh (c : Char) : Bool := c ≠ '\n' ∧ c ≠ '\r'

/-- The class `[A-Z_]` used by the Cisco facility / mnemonic groups. -/
def isUpperUnd (c : Char) : Bool := ('A' ≤ c ∧ c ≤ 'Z') ∨ c = '_'

/-- The class `[\w.-]` of the hostname patterns. -/
def isHostCh (c : Char) : Bool := isWordCh c ∨ c = '.' ∨ c = '-'

/-- Pattern syntax of the hand-compiled ECMAScript regexes: literals,
single-character classes, sequencing, preferred-order alternation,
greedy option, and greedy/lazy repetition of a character class (the
only shapes of repetition appearing in the source patterns). -/
inductive RE where
  | lit (c : Char)
  | cls (p : Char → Bool)
  | seq (a b : RE)
  | alt (a b : RE)
  | opt (a : RE)
  | rep (p : Char → Bool) (lazyRep : Bool)
  | group (i : Nat) (a : RE)

/-- Repetition `p+` (greedy). -/
def RE.plus (p : Char → Bool) : RE := .seq (.cls p) (.rep p false)

/-- Repetition `p+?` (lazy). -/
def RE.plusLazy (p : Char → Bool) : RE := .seq (.cls p) (.rep p true)

/-- Literal character sequence. -/
def RE.str : List Char → RE
  | [] => .opt (.lit 'x')
  | [c] => .lit c
  | c :: rest => .seq (.lit c) (RE.str rest)

/-- Record a capture: insert-or-replace group `i`. -/
def setCap (caps : List (Nat × List Char)) (i : Nat) (v : List Char) : List (Nat × List Char) :=
  match caps with
  | [] => [(i, v)]
  | (j, w) :: rest => if j = i then (j, v) :: rest else (j, w) :: setCap rest i v

/-- Try the continuation after dropping each candidate repetition length
in the given preference order; first success wins (backtracking). -/
def tryDrops (ns : List Nat) (s : List Char) (caps : List (Nat × List Char))
    (k : List Char → List (Nat × List Char) → Option (List (Nat × List Char))) :
    Option (List (Nat × List Char)) :=
  match ns with
  | [] => none
  | n :: rest =>
      match k (s.drop n) caps with
      | some r => some r
      | none => tryDrops rest s caps k

/-- Backtracking matcher in continuation style: `matchRE re s caps k`
attempts to match `re` at the start of `s`, invoking `k` with the
remaining input and updated captures, in ECMAScript preference order. -/
def matchRE : RE → List Char → List (Nat × List Char) →
    (List Char → List (Nat × List Char) → Option (List (Nat × List Char))) →
    Option (List (Nat × List Char))
  | .lit c, s, caps, k =>
      match s with
      | [] => none
      | x :: rest => if x = c then k rest caps else none
  | .cls p, s, caps, k =>
      match s with
      | [] => none
      | x :: rest => if p x then k rest caps else none
  | .seq a b, s, caps, k => matchRE a s caps (fun s2 c2 => matchRE b s2 c2 k)
  | .alt a b, s, caps, k =>
      match matchRE a s caps k with
      | some r => some r
      | none => matchRE b s caps k
  | .opt a, s, caps, k =>
      match matchRE a s caps k with
      | some r => some r
      | none => k s caps
  | .rep p lazyRep, s, caps, k =>
      let run := (s.takeWhile p).length
      let ns := if lazyRep then List.range (run + 1) else (List.range (run + 1)).reverse
      tryDrops ns s caps k
  | .group i a, s, caps, k =>
      matchRE a s caps (fun s2 c2 => k s2 (setCap c2 i (s.take (s.length - s2.length))))

/-- Match `re` anchored at the start of `s` (used for the `^`-anchored
hostname pattern); returns the captures of the first successful
backtracking path. -/
def matchAt (re : RE) (s : List Char) : Option (List (Nat × List Char)) :=
  matchRE re s [] (fun _ caps => some caps)

/-- `std::regex_search` semantics: try each start position left to
right, returning the first position's first successful match. -/
def searchRE (re : RE) : List Char → Option (List (Nat × List Char))
  | [] => matchAt re []
  | c :: rest =>
      match matchAt re (c :: rest) with
      | some caps => some caps
      | none => searchRE re rest

/-- Captured text of group `i` as a string; unmatched groups are empty
(as `smatch` yields an empty string for an unmatched group). -/
def capStr (caps : List (Nat × List Char)) (i : Nat) : String :=
  match caps.find? (fun kv => kv.1 = i) with
  | some kv => String.mk kv.2
  | none => ""

/-- Sequence a list of pattern pieces. -/
def RE.cat : List RE → RE
  | [] => .opt (.lit 'x')
  | [r] => r
  | r :: rest => .seq r (RE.cat rest)

/-- Shorthand pieces used by several source patterns. -/
def reDigits : RE := RE.plus Char.isDigit

/-- `\s+`. -/
def reSpaces : RE := RE.plus isSpaceCh

/-- `\s*`. -/
def reSpacesOpt : RE := .rep isSpaceCh false

/-- `\w+`. -/
def reWord : RE := RE.plus isWordCh

/-- `\d+:\d+:\d+` (clock part of the Cisco timestamp shapes). -/
def reClock : RE :=
  RE.cat [reDigits, .lit ':', reDigits, .lit ':', reDigits]

/-- `(?:\.\d+)?` (optional milliseconds). -/
def reOptMillis : RE := .opt (.seq (.lit '.') reDigits)

/-- `\w+\s+\d+\s+\d+:\d+:\d+(?:\.\d+)?` (month/day timestamp shape). -/
def reMonthDayTime : RE :=
  RE.cat [reWord, reSpaces, reDigits, reSpaces, reClock, reOptMillis]

/-- `standard_pattern_` of `cisco_ios_parser.cpp`:
`\*?(\w+\s+\d+\s+\d+:\d+:\d+(?:\.\d+)?)\s*:\s*%([A-Z_]+)-(\d+)-([A-Z_]+):\s*(.+)`. -/
def ciscoStandardRE : RE :=
  RE.cat [.opt (.lit '*'), .group 1 reMonthDayTime,
    reSpacesOpt, .lit ':', reSpacesOpt, .lit '%',
    .group 2 (RE.plus isUpperUnd), .lit '-', .group 3 reDigits, .lit '-',
    .group 4 (RE.plus isUpperUnd), .lit ':', reSpacesOpt,
    .group 5 (RE.plus isDotCh)]

/-- `priority_pattern_` of `cisco_ios_parser.cpp`:
`<(\d+)>(.+?):\s*%([A-Z_]+)-(\d+)-([A-Z_]+):\s*(.+)`. -/
def ciscoPriorityRE : RE :=
  RE.cat [.lit '<', .group 1 reDigits, .lit '>', .group 2 (RE.plusLazy isDotCh),
    .lit ':', reSpacesOpt, .lit '%',
    .group 3 (RE.plus isUpperUnd), .lit '-', .group 4 reDigits, .lit '-',
    .group 5 (RE.plus isUpperUnd), .lit ':', reSpacesOpt,
    .group 6 (RE.plus isDotCh)]

/-- `message_id_pattern_` of `cisco_ios_parser.cpp`:
`%([A-Z_]+)-(\d+)-([A-Z_]+)`. -/
def ciscoMsgIdRE : RE :=
  RE.cat [.lit '%', .group 1 (RE.plus isUpperUnd), .lit '-', .group 2 reDigits,
    .lit '-', .group 3 (RE.plus isUpperUnd)]

/-- `timestamp_pattern_` of `cisco_ios_parser.cpp`:
`\*?(\w+\s+\d+\s+\d+:\d+:\d+(?:\.\d+)?|\d+:\d+:\d+(?:\.\d+)?|\w+\s+\d+\s+\d+\s+\d+:\d+:\d+)`. -/
def ciscoTimestampRE : RE :=
  .seq (.opt (.lit '*'))
    (.group 1 (.alt reMonthDayTime
      (.alt (.seq reClock reOptMillis)
        (RE.cat [reWord, reSpaces, reDigits, reSpaces, reDigits, reSpaces, reClock]))))

/-- The four `detection_patterns_` of the Cisco IOS parser. -/
def ciscoDetectionREs : List RE :=
  [RE.cat [.lit '%', RE.plus isUpperUnd, .lit '-', reDigits, .lit '-',
     RE.plus isUpperUnd, .lit ':'],
   RE.cat [.lit '*', reWord, reSpaces, reDigits, reSpaces, reClock],
   .alt (RE.str "%LINEPROTO-".data) (.alt (RE.str "%LINK-".data)
     (.alt (RE.str "%BGP-".data) (RE.str "%OSPF-".data))),
   .alt (RE.str "%SYS-".data) (.alt (RE.str "%CONFIG_I-".data) (RE.str "%SEC-".data))]

/-- `rfc3164_pattern_` of `generic_syslog_parser.cpp`:
`<(\d+)>(\w+\s+\d+\s+\d+:\d+:\d+)\s+(\S+)\s+(.+?):\s*(.+)`. -/
def rfc3164RE : RE :=
  RE.cat [.lit '<', .group 1 reDigits, .lit '>',
    .group 2 (RE.cat [reWord, reSpaces, reDigits, reSpaces, reClock]),
    reSpaces, .group 3 (RE.plus (fun c => ¬isSpaceCh c)), reSpaces,
    .group 4 (RE.plusLazy isDotCh), .lit ':', reSpacesOpt,
    .group 5 (RE.plus isDotCh)]

/-- `rfc5424_pattern_` of `generic_syslog_parser.cpp`:
`<(\d+)>(\d+)\s+(\S+)\s+(\S+)\s+(\S+)\s+(\S+)\s+(\S+)\s+(\S*)\s*(.*)`. -/
def rfc5424RE : RE :=
  RE.cat [.lit '<', .group 1 reDigits, .lit '>', .group 2 reDigits, reSpaces,
    .group 3 (RE.plus (fun c => ¬isSpaceCh c)), reSpaces,
    .group 4 (RE.plus (fun c => ¬isSpaceCh c)), reSpaces,
    .group 5 (RE.plus (fun c => ¬isSpaceCh c)), reSpaces,
    .group 6 (RE.plus (fun c => ¬isSpaceCh c)), reSpaces,
    .group 7 (RE.plus (fun c => ¬isSpaceCh c)), reSpaces,
    .group 8 (.rep (fun c => ¬isSpaceCh c) false), reSpacesOpt,
    .group 9 (.rep isDotCh false)]

/-- `priority_pattern_` of `generic_syslog_parser.cpp`: `<(\d+)>(.*)`. -/
def syslogPriorityRE : RE :=
  RE.cat [.lit '<', .group 1 reDigits, .lit '>', .group 2 (.rep isDotCh false)]

/-- The three hostname-extraction patterns of `base_parser.cpp`. The
first is `^`-anchored; the class `[\w\.-]` is `isHostCh`. -/
def hostStartRE : RE :=
  .seq (.group 1 (.seq reWord (.rep isHostCh false))) reSpaces

/-- `\s(\w+[\w\.-]*)\s+%\w+`. -/
def hostBeforeFacilityRE : RE :=
  RE.cat [.cls isSpaceCh, .group 1 (.seq reWord (.rep isHostCh false)), reSpaces,
    .lit '%', reWord]

/-- `<\d+>(\w+[\w\.-]*)\s`. -/
def hostAfterPriorityRE : RE :=
  RE.cat [.lit '<', reDigits, .lit '>',
    .group 1 (.seq reWord (.rep isHostCh false)), .cls isSpaceCh]

/-- Ambient inputs of a parse call: the capture time `now` and the
locale/timezone-dependent timestamp-string parsers (`std::get_time` +
`mktime` based, see `base_parser.cpp` / `cisco_ios_parser.cpp`), which
always produce some time value (falling back to `now` internally). -/
structure ParseEnv where
  now : Int
  cisco_ts : String → Int
  base_ts : String → Int

/-- A concrete environment for closed evaluations: capture time 0 and
timestamp oracles that always answer 0. -/
def env0 : ParseEnv := { now := 0, cisco_ts := fun _ => 0, base_ts := fun _ => 0 }

/-- `BaseParser::clean_message`: trim surrounding whitespace, then strip
NUL and control characters other than tab and newline. -/
def clean_message (message : String) : String :=
  let ws : Char → Bool := fun c => c = ' ' ∨ c = '\t' ∨ c = '\r' ∨ c = '\n'
  let l := message.data.dropWhile ws
  let l2 := (l.reverse.dropWhile ws).reverse
  String.mk (l2.filter (fun c =>
    ¬(c = '\x00' ∨ (0 < c.toNat ∧ c.toNat < 32 ∧ c ≠ '\t' ∧ c ≠ '\n'))))

/-- `BaseParser::extract_hostname`: try the three hostname patterns in
order; a candidate is accepted when longer than one character and free
of spaces, otherwise the next pattern is tried; no match gives "". -/
def extract_hostname (message : String) : String :=
  let validate : Option (List (Nat × List Char)) → Option String := fun r =>
    match r with
    | some caps =>
        let hostname := capStr caps 1
        if hostname.length > 1 ∧ ¬hostname.data.contains ' ' then some hostname else none
    | none => none
  match validate (matchAt hostStartRE message.data) with
  | some h => h
  | none =>
      match validate (searchRE hostBeforeFacilityRE message.data) with
      | some h => h
      | none =>
          match validate (searchRE hostAfterPriorityRE message.data) with
          | some h => h
          | none => ""

/-- `CiscoIOSParser::map_cisco_severity`: digits 0..7 map onto the enum,
anything else defaults to Info. -/
def map_cisco_severity (cisco_severity : Int) : Severity :=
  if cisco_severity = 0 then .Emergency
  else if cisco_severity = 1 then .Alert
  else if cisco_severity = 2 then .Critical
  else if cisco_severity = 3 then .Error
  else if cisco_severity = 4 then .Warning
  else if cisco_severity = 5 then .Notice
  else if cisco_severity = 6 then .Info
  else if cisco_severity = 7 then .Debug
  else .Info

/-- First position of `needle` in `hay` (`std::string::find`). -/
def findSubstr (hay needle : List Char) : Option Nat :=
  match hay with
  | [] => if needle.isEmpty then some 0 else none
  | _ :: rest =>
      if needle.isPrefixOf hay then some 0
      else (findSubstr rest needle).map (· + 1)

/-- `CiscoIOSParser::parse_standard_format`. -/
def parse_standard_format (env : ParseEnv) (message : String) :
    Except String (Option LogEntry) :=
  match searchRE ciscoStandardRE message.data with
  | none => .ok none
  | some caps => do
      let timestamp_str := capStr caps 1
      let facility := capStr caps 2
      let severity_str := capStr caps 3
      let mnemonic := capStr caps 4
      let msg_content := capStr caps 5
      let timestamp := env.cisco_ts timestamp_str
      let cisco_severity ← stoi severity_str
      let severity := map_cisco_severity cisco_severity
      let entry := create_log_entry .CiscoIOS timestamp severity msg_content message
      let entry := entry.set_facility facility
      let entry := entry.add_metadata "mnemonic" mnemonic
      let entry := entry.add_metadata "cisco_severity" severity_str
      let hostname := extract_hostname message
      let entry := if hostname ≠ "" then entry.set_hostname hostname else entry
      pure (some entry)

/-- `CiscoIOSParser::parse_priority_format`. -/
def parse_priority_format (env : ParseEnv) (message : String) :
    Except String (Option LogEntry) :=
  match searchRE ciscoPriorityRE message.data with
  | none => .ok none
  | some caps => do
      let priority_str := capStr caps 1
      let timestamp_str := capStr caps 2
      let facility := capStr caps 3
      let severity_str := capStr caps 4
      let mnemonic := capStr caps 5
      let msg_content := capStr caps 6
      let timestamp := env.cisco_ts timestamp_str
      let cisco_severity ← stoi severity_str
      let severity := map_cisco_severity cisco_severity
      let entry := create_log_entry .CiscoIOS timestamp severity msg_content message
      let entry := entry.set_facility facility
      let entry := entry.add_metadata "mnemonic" mnemonic
      let entry := entry.add_metadata "cisco_severity" severity_str
      let entry := entry.add_metadata "syslog_priority" priority_str
      let hostname := extract_hostname message
      let entry := if hostname ≠ "" then entry.set_hostname hostname else entry
      pure (some entry)

/-- `CiscoIOSParser::parse_simple_format`: locate the message-id token
anywhere, optionally find a timestamp, and slice the content after the
token (the `+3` offset of the source keeps the colon in the content). -/
def parse_simple_format (env : ParseEnv) (message : String) :
    Except String (Option LogEntry) :=
  match searchRE ciscoMsgIdRE message.data with
  | none => .ok none
  | some caps => do
      let facility := capStr caps 1
      let severity_str := capStr caps 2
      let mnemonic := capStr caps 3
      let timestamp :=
        match searchRE ciscoTimestampRE message.data with
        | some tcaps => env.cisco_ts (capStr tcaps 1)
        | none => env.now
      let cisco_severity ← stoi severity_str
      let severity := map_cisco_severity cisco_severity
      let token := "%" ++ facility ++ "-" ++ severity_str ++ "-" ++ mnemonic ++ ":"
      let msg_content :=
        match findSubstr message.data token.data with
        | some msg_id_pos =>
            let content_start :=
              msg_id_pos + facility.length + severity_str.length + mnemonic.length + 3
            if content_start < message.length then
              clean_message (String.mk (message.data.drop content_start))
            else message
        | none => message
      let entry := create_log_entry .CiscoIOS timestamp severity msg_content message
      let entry := entry.set_facility facility
      let entry := entry.add_metadata "mnemonic" mnemonic
      let entry := entry.add_metadata "cisco_severity" severity_str
      let hostname := extract_hostname message
      let entry := if hostname ≠ "" then entry.set_hostname hostname else entry
      pure (some entry)

/-- `CiscoIOSParser::parse`: empty input is rejected, then the three
formats are tried in order. -/
def ciscoIOSParse (env : ParseEnv) (raw_message : String) :
    Except String (Option LogEntry) := do
  if raw_message = "" then pure none
  else
    match ← parse_standard_format env raw_message with
    | some e => pure (some e)
    | none =>
        match ← parse_priority_format env raw_message with
        | some e => pure (some e)
        | none =>
            match ← parse_simple_format env raw_message with
            | some e => pure (some e)
            | none => pure none

/-- `CiscoIOSParser::can_parse`: any detection pattern present. -/
def ciscoIOSCanParse (raw_message : String) : Bool :=
  ciscoDetectionREs.any (fun p => (searchRE p raw_message.data).isSome)

/-- `GenericSyslogParser::parse`: RFC 3164, then RFC 5424, then the bare
priority fallback; the priority digits go through unguarded `std::stoi`
while the severity nibble goes through the guarded numeric
`parse_severity`. -/
def genericSyslogParse (env : ParseEnv) (raw_message : String) :
    Except String (Option LogEntry) := do
  if raw_message = "" then pure none
  else
    match searchRE rfc3164RE raw_message.data with
    | some caps => do
        let priority ← stoi (capStr caps 1)
        let timestamp_str := capStr caps 2
        let hostname := capStr caps 3
        let tag := capStr caps 4
        let message := capStr caps 5
        let facility := priority / 8
        let severity_num := (priority % 8).toNat
        let severity :=
          match parse_severity_num severity_num with
          | .ok s => s
          | .error _ => .Info
        let timestamp := env.base_ts timestamp_str
        let entry := create_log_entry .GenericSyslog timestamp severity message raw_message
        let entry := entry.set_hostname hostname
        let entry := entry.set_process_name tag
        let entry := entry.add_metadata "facility_code" (toString facility)
        let entry := entry.add_metadata "syslog_priority" (toString priority)
        let entry := entry.add_metadata "format" "RFC3164"
        pure (some entry)
    | none =>
        match searchRE rfc5424RE raw_message.data with
        | some caps => do
            let priority ← stoi (capStr caps 1)
            let version := capStr caps 2
            let timestamp_str := capStr caps 3
            let hostname := capStr caps 4
            let app_name := capStr caps 5
            let proc_id := capStr caps 6
            let msg_id := capStr caps 7
            let structured_data := capStr caps 8
            let message := capStr caps 9
            let facility := priority / 8
            let severity_num := (priority % 8).toNat
            let severity :=
              match parse_severity_num severity_num with
              | .ok s => s
              | .error _ => .Info
            let timestamp := env.base_ts timestamp_str
            let entry := create_log_entry .GenericSyslog timestamp severity message raw_message
            let entry := entry.set_hostname hostname
            let entry := entry.set_process_name app_name
            let entry :=
              if proc_id ≠ "-" then
                match stoul proc_id with
                | .ok v => entry.set_process_id (v % 2 ^ 32)
                | .error _ => entry
              else entry
            let entry := entry.add_metadata "facility_code" (toString facility)
            let entry := entry.add_metadata "syslog_priority" (toString priority)
            let entry := entry.add_metadata "syslog_version" version
            let entry := entry.add_metadata "message_id" msg_id
            let entry := entry.add_metadata "format" "RFC5424"
            let entry :=
              if structured_data ≠ "" ∧ structured_data ≠ "-" then
                entry.add_metadata "structured_data" structured_data
              else entry
            pure (some entry)
        | none =>
            match searchRE syslogPriorityRE raw_message.data with
            | some caps => do
                let priority ← stoi (capStr caps 1)
                let remaining := capStr caps 2
                let facility := priority / 8
                let severity_num := (priority % 8).toNat
                let severity :=
                  match parse_severity_num severity_num with
                  | .ok s => s
                  | .error _ => .Info
                let timestamp := env.now
                let entry :=
                  create_log_entry .GenericSyslog timestamp severity remaining raw_message
                let entry := entry.add_metadata "facility_code" (toString facility)
                let entry := entry.add_metadata "syslog_priority" (toString priority)
                let entry := entry.add_metadata "format" "basic_priority"
                pure (some entry)
            | none => pure none

/-- `GenericSyslogParser::can_parse`: a priority prefix anywhere. -/
def genericSyslogCanParse (raw_message : String) : Bool :=
  (searchRE syslogPriorityRE raw_message.data).isSome

/-- `CiscoNXOSParser::parse` (placeholder implementation in the source):
non-empty input becomes a record carrying the raw message with Info
severity and a parser note. -/
def ciscoNXOSParse (env : ParseEnv) (raw_message : String) :
    Except String (Option LogEntry) :=
  if raw_message = "" then .ok none
  else
    let entry := create_log_entry .CiscoNXOS env.now .Info raw_message raw_message
    let entry := entry.add_metadata "parser_note" "Basic NX-OS parsing - needs enhancement"
    .ok (some entry)

/-- `CiscoASAParser::parse` (placeholder implementation in the source). -/
def ciscoASAParse (env : ParseEnv) (raw_message : String) :
    Except String (Option LogEntry) :=
  if raw_message = "" then .ok none
  else
    let entry := create_log_entry .CiscoASA env.now .Info raw_message raw_message
    let entry := entry.add_metadata "parser_note" "Basic ASA parsing - needs enhancement"
    .ok (some entry)

/-- The priority tiers hard-coded in `ParserFactory::auto_detect`:
the Cisco family gets 3, generic syslog 1, anything else 2. -/
def parserPriority : DeviceType → Nat
  | .CiscoIOS => 3
  | .CiscoIOSXE => 3
  | .CiscoNXOS => 3
  | .CiscoASA => 3
  | .GenericSyslog => 1
  | _ => 2

/-- The Cisco-family device types (those in the priority-3 tier). -/
def ciscoFamily (dt : DeviceType) : Bool :=
  dt = .CiscoIOS ∨ dt = .CiscoIOSXE ∨ dt = .CiscoNXOS ∨ dt = .CiscoASA

/-- A registered native parser, reduced to what auto-detection uses: its
device-type key and its `can_parse` predicate. -/
abbrev Registry := List (DeviceType × (String → Bool))

/-- Descending insertion by priority, modelling `std::sort` with the
comparator `a.second > b.second` followed by taking the front element
(`std::sort` is unstable; any sort agreeing with the comparator is a
faithful refinement, and only the maximality of the front matters). -/
def insertDesc (x : DeviceType × Nat) :
    List (DeviceType × Nat) → List (DeviceType × Nat)
  | [] => [x]
  | y :: rest => if x.2 > y.2 then x :: y :: rest else y :: insertDesc x rest

/-- Sort candidates descending by priority. -/
def sortDesc : List (DeviceType × Nat) → List (DeviceType × Nat)
  | [] => []
  | x :: rest => insertDesc x (sortDesc rest)

/-- `ParserFactory::create_parser`: look the device type up among the
registered creators (here: return the key on success). -/
def createParser (reg : Registry) (dt : DeviceType) : Option DeviceType :=
  if (reg.find? (fun e => e.1 = dt)).isSome then some dt else none

/-- `ParserFactory::auto_detect`: gather the registered parsers
whose `can_parse` accepts the input, tag each with its tier, sort
descending, and create the front one. -/
def auto_detect (reg : Registry) (raw_message : String) : Option DeviceType :=
  let candidates := reg.filterMap (fun e =>
    if e.2 raw_message then some (e.1, parserPriority e.1) else none)
  match sortDesc candidates with
  | [] => none
  | top :: _ => createParser reg top.1

/-- Lua values as seen through the C API in `lua_engine.cpp`. Numbers
are modelled as integers (the fields exercised here are integral); table
keys are full values, as in Lua. -/
inductive LuaValue where
  | nil
  | boolean (b : Bool)
  | num (n : Int)
  | str (s : String)
  | table (entries : List (LuaValue × LuaValue))
deriving Repr

/-- Decimal rendering used by `lua_tostring` on a number value. -/
def luaNumToString (n : Int) : String := toString n

/-- Lua string→number coercion (`lua_isnumber` on strings): a numeric
literal, here an optionally-signed decimal integer. -/
def luaStrToNum (s : String) : Option Int :=
  let chars := s.data.dropWhile isSpaceCh
  let signed : Bool × List Char :=
    match chars with
    | '-' :: rest => (true, rest)
    | '+' :: rest => (false, rest)
    | rest => (false, rest)
  let digits := signed.2.takeWhile Char.isDigit
  let rest := (signed.2.dropWhile Char.isDigit).dropWhile isSpaceCh
  if digits.isEmpty ∨ ¬rest.isEmpty then none
  else
    let mag : Nat := digits.foldl (fun acc c => acc * 10 + (c.toNat - 48)) 0
    some (if signed.1 then -(mag : Int) else (mag : Int))

/-- `lua_isnumber`: numbers, and strings convertible to numbers. -/
def lua_isnumber : LuaValue → Bool
  | .num _ => true
  | .str s => (luaStrToNum s).isSome
  | _ => false

/-- `lua_tonumber`. -/
def lua_tonumber : LuaValue → Int
  | .num n => n
  | .str s => (luaStrToNum s).getD 0
  | _ => 0

/-- `lua_isstring`: strings, and numbers (which coerce to strings). -/
def lua_isstring : LuaValue → Bool
  | .str _ => true
  | .num _ => true
  | _ => false

/-- `lua_tostring`. -/
def lua_tostring : LuaValue → String
  | .str s => s
  | .num n => luaNumToString n
  | _ => ""

/-- `lua_toboolean`: everything is true except `nil` and `false`. -/
def lua_toboolean : LuaValue → Bool
  | .nil => false
  | .boolean b => b
  | _ => true

/-- `lua_istable`. -/
def lua_istable : LuaValue → Bool
  | .table _ => true
  | _ => false

/-- `lua_getfield`: string-keyed table lookup; absent keys give `nil`. -/
def lua_getfield (v : LuaValue) (key : String) : LuaValue :=
  match v with
  | .table entries =>
      match entries.find? (fun kv =>
        match kv.1 with
        | .str s => s = key
        | _ => false) with
      | some kv => kv.2
      | none => .nil
  | _ => .nil

/-- Outcome of calling a Lua function through `lua_pcall`: a runtime
error with a message, or the (single, nil-padded) result value. -/
def LuaCallResult := Except String LuaValue

/-- `LuaEngine::get_device_type` (`lua_engine.cpp` lines 310-328): an
unloaded script or a failed call gives Unknown, a non-string result
gives Unknown, and a string result goes through the strict native
`parse_device_type`, whose exception propagates (there is no handler). -/
def luaGetDeviceType (script_loaded : Bool) (callResult : LuaCallResult) :
    Except String DeviceType :=
  if ¬script_loaded then .ok .Unknown
  else
    match callResult with
    | .error _ => .ok .Unknown
    | .ok v =>
        if lua_isstring v then parse_device_type (lua_tostring v)
        else .ok .Unknown

/-- The severity-field block of `LuaEngine::parse` (lines 218-228): a
string-coercible value goes through the strict native `parse_severity`
(whose exception propagates); the `lua_isnumber` branch is dead code
because every number is also `lua_isstring`; any other value leaves the
default severity. -/
def marshal_severity (sevField : LuaValue) (entry : LogEntry) : Except String LogEntry :=
  if lua_isstring sevField then do
    let severity ← parse_severity (lua_tostring sevField)
    pure (entry.set_severity severity)
  else if lua_isnumber sevField then
    pure (entry.set_severity (severityOfNat (lua_tonumber sevField).toNat))
  else pure entry

/-- `LuaEngine::parse` (`lua_engine.cpp` lines 169-290): call the
script's `parse`, accept nil (no match) or a table, and marshal the
table field by field. The severity field, when string-coercible, goes
through the strict native `parse_severity`, whose exception propagates;
`get_device_type()` is invoked to stamp the device type and may itself
propagate an exception. All other malformed fields fall back to
defaults. `gdtResult` is the outcome of the script's `get_device_type`
call made during marshaling. -/
def luaEngineParse (script_loaded : Bool) (now : Int)
    (gdtResult : LuaCallResult) (raw_message : String)
    (callResult : LuaCallResult) : Except String (Option LogEntry) := do
  if ¬script_loaded then pure none
  else
    match callResult with
    | .error _ => pure none
    | .ok .nil => pure none
    | .ok v =>
        if ¬lua_istable v then pure none
        else do
          let entry : LogEntry := {}
          let tsField := lua_getfield v "timestamp"
          let entry :=
            if lua_isnumber tsField then
              entry.set_timestamp (lua_tonumber tsField * 1000)
            else entry.set_timestamp now
          let entry ← marshal_severity (lua_getfield v "severity") entry
          let msgField := lua_getfield v "message"
          let entry :=
            if lua_isstring msgField then entry.set_message (lua_tostring msgField) else entry
          let facField := lua_getfield v "facility"
          let entry :=
            if lua_isstring facField then entry.set_facility (lua_tostring facField) else entry
          let hostField := lua_getfield v "hostname"
          let entry :=
            if lua_isstring hostField then entry.set_hostname (lua_tostring hostField) else entry
          let pnField := lua_getfield v "process_name"
          let entry :=
            if lua_isstring pnField then entry.set_process_name (lua_tostring pnField)
            else entry
          let pidField := lua_getfield v "process_id"
          let entry :=
            if lua_isnumber pidField then
              entry.set_process_id ((lua_tonumber pidField).emod (2 ^ 32)).toNat
            else entry
          let dt ← luaGetDeviceType script_loaded gdtResult
          let entry := entry.set_device_type dt
          let entry := entry.set_raw_message raw_message
          let mdField := lua_getfield v "metadata"
          let entry :=
            match mdField with
            | .table mdEntries =>
                mdEntries.foldl (fun e kv =>
                  if lua_isstring kv.1 ∧ lua_isstring kv.2 then
                    e.add_metadata (lua_tostring kv.1) (lua_tostring kv.2)
                  else e) entry
            | _ => entry
          pure (some entry)

/-- `LuaEngine::can_parse` (`lua_engine.cpp` lines 292-308): unloaded or
errored calls give false; otherwise the raw result goes through
`lua_toboolean` (Lua truthiness). -/
def luaEngineCanParse (script_loaded : Bool) (callResult : LuaCallResult) : Bool :=
  if ¬script_loaded then false
  else
    match callResult with
    | .error _ => false
    | .ok v => lua_toboolean v

/-- `LuaEngine::lua_parse_severity` (`lua_engine.cpp` lines 444-454),
the `netlog.parse_severity` host helper: a missing or non-string
argument yields Info (6); a string argument goes through the strict
native `parse_severity`, whose exception propagates uncaught out of the
Lua C function. -/
def lua_parse_severity (args : List LuaValue) : Except String Int :=
  if args.length ≠ 1 ∨ ¬lua_isstring (args.headD .nil) then
    .ok ((Severity.Info).toNat : Int)
  else do
    let severity ← parse_severity (lua_tostring (args.headD .nil))
    pure (severity.toNat : Int)

/-- `LuaEngine::lua_parse_device_type` (`lua_engine.cpp` lines 456-474),
the `netlog.parse_device_type` host helper: a missing or non-string
argument yields "Unknown"; a string argument goes through the strict
native `parse_device_type`, whose exception propagates uncaught; a
recognized value is rendered back to its canonical name (IOS-XE and
Custom fall into the default "Unknown" branch of the switch). -/
def lua_parse_device_type (args : List LuaValue) : Except String String :=
  if args.length ≠ 1 ∨ ¬lua_isstring (args.headD .nil) then
    .ok "Unknown"
  else do
    let device_type ← parse_device_type (lua_tostring (args.headD .nil))
    pure (match device_type with
      | .CiscoIOS => "CiscoIOS"
      | .CiscoNXOS => "CiscoNXOS"
      | .CiscoASA => "CiscoASA"
      | .GenericSyslog => "GenericSyslog"
      | _ => "Unknown")

/-- State of a `LuaEngine` handle that the claims observe: the
`script_loaded_` flag and the `last_error_` message. -/
structure LuaEngineState where
  script_loaded : Bool
  last_error : Option String
deriving Repr, DecidableEq

/-- A fresh engine, as after the constructor or `reset()`. -/
def initialEngineState : LuaEngineState := { script_loaded := false, last_error := none }

/-- What the host observes of one script source when loading it: the
compile (`luaL_loadbuffer`) outcome, the top-level execution
(`lua_pcall`) outcome, and which of the required globals are defined as
functions afterwards. -/
structure ScriptOutcome where
  compile : Except String Unit
  exec : Except String Unit
  has_parse : Bool
  has_can_parse : Bool
  has_get_device_type : Bool
  has_get_parser_name : Bool

/-- `LuaEngine::set_error`. -/
def setError (s : LuaEngineState) (msg : String) : LuaEngineState :=
  { s with last_error := some msg }

/-- `LuaEngine::load_script_from_string` (`lua_engine.cpp` lines
105-167): compile, execute, then verify the four required functions in
order; any failure records an error and returns false without setting
`script_loaded_`. -/
def load_script_from_string (s : LuaEngineState) (o : ScriptOutcome) :
    Bool × LuaEngineState :=
  match o.compile with
  | .error msg => (false, setError s ("Failed to load script: " ++ msg))
  | .ok _ =>
      match o.exec with
      | .error msg => (false, setError s ("Failed to execute script: " ++ msg))
      | .ok _ =>
          if ¬o.has_parse then
            (false, setError s "Required function 'parse' not found in script")
          else if ¬o.has_can_parse then
            (false, setError s "Required function 'can_parse' not found in script")
          else if ¬o.has_get_device_type then
            (false, setError s "Required function 'get_device_type' not found in script")
          else if ¬o.has_get_parser_name then
            (false, setError s "Required function 'get_parser_name' not found in script")
          else (true, { s with script_loaded := true })

/-- `LuaEngine::load_script`: an unreadable file records an error and
fails; otherwise the content is loaded from string. -/
def load_script (s : LuaEngineState) (fileContent : Option ScriptOutcome) :
    Bool × LuaEngineState :=
  match fileContent with
  | none => (false, setError s "Failed to open script file")
  | some o => load_script_from_string s o

/-- JSON values as used by `log_entry.cpp` through `nlohmann::json`
(arrays are not needed by the serializer). -/
inductive Json where
  | null
  | bool (b : Bool)
  | num (n : Int)
  | str (s : String)
  | obj (entries : List (String × Json))
deriving Repr

/-- Object insert-or-replace (`j[key] = value`). -/
def jsetEntries (entries : List (String × Json)) (key : String) (v : Json) :
    List (String × Json) :=
  match entries with
  | [] => [(key, v)]
  | (k, w) :: rest =>
      if k = key then (k, v) :: rest else (k, w) :: jsetEntries rest key v

/-- `j[key] = value` on a JSON value (a non-object becomes an object, as
nlohmann implicitly converts null). -/
def jset (j : Json) (key : String) (v : Json) : Json :=
  match j with
  | .obj entries => .obj (jsetEntries entries key v)
  | _ => .obj [(key, v)]

/-- `j.contains(key)`. -/
def jcontains (j : Json) (key : String) : Bool :=
  match j with
  | .obj entries => (entries.find? (fun kv => kv.1 = key)).isSome
  | _ => false

/-- `j[key]` lookup (read-only use; absent keys give null). -/
def jget (j : Json) (key : String) : Json :=
  match j with
  | .obj entries =>
      match entries.find? (fun kv => kv.1 = key) with
      | some kv => kv.2
      | none => .null
  | _ => .null

/-- `get<std::string>()`: nlohmann throws `type_error` on non-strings. -/
def jasString (j : Json) : Except String String :=
  match j with
  | .str s => .ok s
  | _ => .error "json type_error: not a string"

/-- Numeric read (`operator=` into an integral target). -/
def jasNum (j : Json) : Except String Int :=
  match j with
  | .num n => .ok n
  | _ => .error "json type_error: not a number"

/-- Year start, in days, within a 400-year era (the running total of
`365 y + y/4 - y/100` that the civil-calendar algorithm uses). -/
def ysOf (y : Nat) : Nat := 365 * y + y / 4 - y / 100

/-- Numerator of the year-of-era extraction of the civil-from-days
algorithm. -/
def gOf (doe : Nat) : Nat := doe - doe / 1460 + doe / 36524 - doe / 146096

/-- The year-of-era extraction itself. -/
def fOf (doe : Nat) : Nat := gOf doe / 365

/-- Proleptic-Gregorian civil date from shifted day number `z` (`z` is
days since 0000-03-01); this is the standard civil-from-days algorithm
and models the `gmtime` date computation for non-negative epochs. -/
def civilFromDays (z : Nat) : Nat × Nat × Nat :=
  let era := z / 146097
  let doe := z % 146097
  let yoe := fOf doe
  let y := yoe + era * 400
  let doy := doe - ysOf yoe
  let mp := (5 * doy + 2) / 153
  let d := doy - (153 * mp + 2) / 5 + 1
  let m := if mp < 10 then mp + 3 else mp - 9
  (if m ≤ 2 then y + 1 else y, m, d)

/-- Days since the Unix epoch of a civil date (standard days-from-civil
algorithm; models the date arithmetic of `timegm`/`mktime`). -/
def daysFromCivil (y m d : Nat) : Int :=
  let yAdj := if m ≤ 2 then y - 1 else y
  let era := yAdj / 400
  let yoe := yAdj % 400
  let doy := (153 * (if m > 2 then m - 3 else m + 9) + 2) / 5 + d - 1
  let doe := ysOf yoe + doy
  ((era * 146097 + doe : Nat) : Int) - 719468

/-- The `gmtime` breakdown of an epoch-seconds value into
(year, month, day, hour, minute, second), UTC. -/
def gmtimeModel (t : Int) : Nat × Nat × Nat × Nat × Nat × Nat :=
  let days := t / 86400
  let sod := (t % 86400).toNat
  let c := civilFromDays (days + 719468).toNat
  (c.1, c.2.1, c.2.2, sod / 3600, sod % 3600 / 60, sod % 60)

/-- Two-digit zero-padded field (`%m`, `%d`, `%H`, `%M`, `%S`). -/
def pad2L (n : Nat) : List Char := [Nat.digitChar (n / 10 % 10), Nat.digitChar (n % 10)]

/-- Year field `%Y`: four digits for the years the format round-trips,
full decimal beyond. -/
def pad4L (y : Nat) : List Char :=
  if y < 10000 then
    [Nat.digitChar (y / 1000), Nat.digitChar (y / 100 % 10),
     Nat.digitChar (y / 10 % 10), Nat.digitChar (y % 10)]
  else Nat.toDigits 10 y

/-- `std::put_time(gmtime(...), "%Y-%m-%dT%H:%M:%SZ")` on an
epoch-seconds value. -/
def renderTs (t : Int) : String :=
  let c := gmtimeModel t
  String.mk (pad4L c.1 ++ '-' :: pad2L c.2.1 ++ '-' :: pad2L c.2.2.1 ++
    'T' :: pad2L c.2.2.2.1 ++ ':' :: pad2L c.2.2.2.2.1 ++ ':' :: pad2L c.2.2.2.2.2 ++ ['Z'])

/-- Numeric value of two digit characters. -/
def val2 (a b : Char) : Nat := (a.toNat - 48) * 10 + (b.toNat - 48)

/-- `std::get_time(&tm, "%Y-%m-%dT%H:%M:%SZ")` on the fixed-width shape
produced by the serializer: four year digits, two digits per remaining
field, with the literal separators; anything else fails. -/
def scanTsL : List Char → Option (Nat × Nat × Nat × Nat × Nat × Nat)
  | [y1, y2, y3, y4, a1, m1, m2, a2, d1, d2, a3, h1, h2, a4, i1, i2, a5, s1, s2, a6] =>
      if y1.isDigit ∧ y2.isDigit ∧ y3.isDigit ∧ y4.isDigit ∧
         m1.isDigit ∧ m2.isDigit ∧ d1.isDigit ∧ d2.isDigit ∧
         h1.isDigit ∧ h2.isDigit ∧ i1.isDigit ∧ i2.isDigit ∧
         s1.isDigit ∧ s2.isDigit ∧
         a1 = '-' ∧ a2 = '-' ∧ a3 = 'T' ∧ a4 = ':' ∧ a5 = ':' ∧ a6 = 'Z' then
        some (val2 y1 y2 * 100 + val2 y3 y4, val2 m1 m2, val2 d1 d2,
          val2 h1 h2, val2 i1 i2, val2 s1 s2)
      else none
  | _ => none

/-- String-level wrapper of `scanTsL`. -/
def scanTs (s : String) : Option (Nat × Nat × Nat × Nat × Nat × Nat) :=
  scanTsL s.data

/-- `mktime` on a broken-down time with `tm_isdst = 0`: the civil fields
are interpreted in the host's standard local time, `tz` seconds east of
UTC (the source decodes with `mktime` although it encoded with
`gmtime`). -/
def mkTimeModel (tz : Int) (y m d h mi s : Nat) : Int :=
  86400 * daysFromCivil y m d + ((h * 3600 + mi * 60 + s : Nat) : Int) - tz

/-- `system_clock::to_time_t`: truncation of the millisecond count
toward zero seconds (`duration_cast`). -/
def to_time_t (t_ms : Int) : Int := t_ms.tdiv 1000

/-- `LogEntry::to_json` (`log_entry.cpp` lines 93-117): timestamp as an
ISO-8601 UTC string via `gmtime`, severity and device type by name,
message always, the optional fields only when non-empty. -/
def LogEntry.to_json (e : LogEntry) : Json :=
  let j := Json.obj []
  let j := jset j "timestamp" (.str (renderTs (to_time_t e.timestamp)))
  let j := jset j "severity" (.str (severity_to_string e.severity))
  let j := jset j "message" (.str e.message)
  let j := jset j "device_type" (.str (device_type_to_string e.device_type))
  let j := if e.facility ≠ "" then jset j "facility" (.str e.facility) else j
  let j := if e.hostname ≠ "" then jset j "hostname" (.str e.hostname) else j
  let j := if e.process_name ≠ "" then jset j "process_name" (.str e.process_name) else j
  let j := e.process_id.elim j (fun pid => jset j "process_id" (.num (pid : Int)))
  let j := if e.raw_message ≠ "" then jset j "raw_message" (.str e.raw_message) else j
  let j :=
    if e.metadata ≠ [] then
      jset j "metadata" (.obj (e.metadata.map (fun kv => (kv.1, .str kv.2))))
    else j
  j

/-- Decode a JSON object into a string→string map (the nlohmann
conversion of `metadata`); a non-string value throws. -/
def decodeStrMap : List (String × Json) → Except String (List (String × String))
  | [] => .ok []
  | (k, v) :: rest => do
      let s ← jasString v
      let tail ← decodeStrMap rest
      pure ((k, s) :: tail)

/-- The timestamp block of `LogEntry::from_json`: parse the string with
`get_time` and re-interpret it through `mktime` (local time, offset
`tz`); a malformed string leaves the default timestamp. -/
def from_json_timestamp (tz : Int) (j : Json) (entry : LogEntry) : Except String LogEntry :=
  if jcontains j "timestamp" then do
    let timestamp_str ← jasString (jget j "timestamp")
    match scanTs timestamp_str with
    | some c =>
        pure (entry.set_timestamp
          (1000 * mkTimeModel tz c.1 c.2.1 c.2.2.1 c.2.2.2.1 c.2.2.2.2.1 c.2.2.2.2.2))
    | none => pure entry
  else pure entry

/-- The severity block of `LogEntry::from_json`: unknown or non-string
severity falls back to Info (the catch block). -/
def from_json_severity (j : Json) (entry : LogEntry) : LogEntry :=
  if jcontains j "severity" then
    match (do parse_severity (← jasString (jget j "severity")) :
        Except String Severity) with
    | .ok sev => entry.set_severity sev
    | .error _ => entry.set_severity .Info
  else entry

/-- The device-type block of `LogEntry::from_json`: unknown or
non-string device type falls back to Unknown (the catch block). -/
def from_json_device_type (j : Json) (entry : LogEntry) : LogEntry :=
  if jcontains j "device_type" then
    match (do parse_device_type (← jasString (jget j "device_type")) :
        Except String DeviceType) with
    | .ok dt => entry.set_device_type dt
    | .error _ => entry.set_device_type .Unknown
  else entry

/-- The message block of `LogEntry::from_json` (throws on a wrong
type). -/
def from_json_message (j : Json) (entry : LogEntry) : Except String LogEntry :=
  if jcontains j "message" then do
    pure (entry.set_message (← jasString (jget j "message")))
  else pure entry

/-- The facility block of `LogEntry::from_json`. -/
def from_json_facility (j : Json) (entry : LogEntry) : Except String LogEntry :=
  if jcontains j "facility" then do
    pure (entry.set_facility (← jasString (jget j "facility")))
  else pure entry

/-- The hostname block of `LogEntry::from_json`. -/
def from_json_hostname (j : Json) (entry : LogEntry) : Except String LogEntry :=
  if jcontains j "hostname" then do
    pure (entry.set_hostname (← jasString (jget j "hostname")))
  else pure entry

/-- The process-name block of `LogEntry::from_json`. -/
def from_json_process_name (j : Json) (entry : LogEntry) : Except String LogEntry :=
  if jcontains j "process_name" then do
    pure (entry.set_process_name (← jasString (jget j "process_name")))
  else pure entry

/-- The process-id block of `LogEntry::from_json` (numeric,
`std::uint32_t` target). -/
def from_json_process_id (j : Json) (entry : LogEntry) : Except String LogEntry :=
  if jcontains j "process_id" then do
    let n ← jasNum (jget j "process_id")
    pure (entry.set_process_id (n % (2 ^ 32 : Int)).toNat)
  else pure entry

/-- The raw-message block of `LogEntry::from_json`. -/
def from_json_raw_message (j : Json) (entry : LogEntry) : Except String LogEntry :=
  if jcontains j "raw_message" then do
    pure (entry.set_raw_message (← jasString (jget j "raw_message")))
  else pure entry

/-- The metadata block of `LogEntry::from_json`: only a JSON object is
accepted, and its values must all be strings (the nlohmann map
conversion). -/
def from_json_metadata (j : Json) (entry : LogEntry) : Except String LogEntry :=
  match jget j "metadata" with
  | .obj mdEntries => do
      let md ← decodeStrMap mdEntries
      pure { entry with metadata := md }
  | _ => pure entry

/-- `LogEntry::from_json` (`log_entry.cpp` lines 119-165): the field
blocks above applied in source order to a default-initialized entry. -/
def LogEntry.from_json (tz : Int) (j : Json) : Except String LogEntry := do
  let entry : LogEntry := {}
  let entry ← from_json_timestamp tz j entry
  let entry := from_json_severity j entry
  let entry := from_json_device_type j entry
  let entry ← from_json_message j entry
  let entry ← from_json_facility j entry
  let entry ← from_json_hostname j entry
  let entry ← from_json_process_name j entry
  let entry ← from_json_process_id j entry
  let entry ← from_json_raw_message j entry
  let entry ← from_json_metadata j entry
  pure entry

/-- Month/day inversion within one March-based year, checked day by day. -/
def mdCheck (doy : Nat) : Bool :=
  let mp := (5 * doy + 2) / 153
  let d := doy - (153 * mp + 2) / 5 + 1
  let m := if mp < 10 then mp + 3 else mp - 9
  ((153 * (if m > 2 then m - 3 else m + 9) + 2) / 5 + d - 1 == doy) &&
    1 ≤ m && m ≤ 12 && 1 ≤ d && d ≤ 31 && ((m ≤ 2) == (306 ≤ doy))

/-- A record with a populated sub-second timestamp (1.5s after the
epoch), used to refute exact round-tripping. -/
def c9CounterEntry : LogEntry := { timestamp := 1500, message := "m" }

/-- A fully-populated record with a whole-second timestamp for the
round-trip witness. -/
def c9WitnessEntry : LogEntry :=
  { timestamp := 1705314645000, severity := .Critical, message := "Accepted password",
    facility := "auth", hostname := "server01", process_name := "sshd",
    process_id := some 1234, device_type := .GenericSyslog,
    raw_message := "<34>raw line", metadata := [("format", "RFC3164"), ("a", "b")] }

/-- An outcome whose script compiled and ran but never defined
`get_parser_name`. -/
def c5BadOutcome : ScriptOutcome :=
  { compile := .ok (), exec := .ok (), has_parse := true, has_can_parse := true,
    has_get_device_type := true, has_get_parser_name := false }

/-- The Cisco IOS probe input of the spec's testable properties. -/
def c7Input : String :=
  "%LINEPROTO-5-UPDOWN: Line protocol on Interface GigabitEthernet0/1, changed state to down"

/-- The generic-syslog probe input of the spec's testable properties. -/
def c8Input : String := "<34>Jan 15 10:30:45 server01 sshd[1234]: Accepted password for admin"

/-- The record the generic syslog parser produces for `c8Input` in the
environment `env0`. -/
def c8Entry : LogEntry :=
  { timestamp := 0, severity := .Critical, message := "Accepted password for admin",
    hostname := "server01", process_name := "sshd[1234]",
    device_type := .GenericSyslog, raw_message := c8Input,
    metadata := [("facility_code", "4"), ("syslog_priority", "34"), ("format", "RFC3164")] }

/-! Helper lemmas: the civil-calendar codec. -/

theorem gOf_step (d : Nat) : gOf d ≤ gOf (d + 1) := by
  unfold gOf
  omega

theorem gOf_mono {a b : Nat} (h : a ≤ b) : gOf a ≤ gOf b := by
  induction b with
  | zero =>
      have h0 : a = 0 := by omega
      simp [h0]
  | succ n ih =>
      rcases Nat.lt_or_ge a (n + 1) with h1 | h1
      · exact le_trans (ih (by omega)) (gOf_step n)
      · have h2 : a = n + 1 := by omega
        simp [h2]

theorem fOf_mono {a b : Nat} (h : a ≤ b) : fOf a ≤ fOf b :=
  Nat.div_le_div_right (gOf_mono h)

set_option maxRecDepth 4000 in
theorem fOf_ys_lo : ∀ y < 400, fOf (ysOf y) = y := by decide

set_option maxRecDepth 4000 in
theorem fOf_ys_hi : ∀ y < 400, fOf (ysOf (y + 1) - 1) = y := by decide

set_option maxRecDepth 4000 in
theorem ysOf_gap : ∀ y < 400, ysOf (y + 1) - ysOf y ≤ 366 ∧ ysOf y < ysOf (y + 1) := by decide

theorem fOf_top : fOf 146096 = 399 := by decide

theorem ysOf_399 : ysOf 399 = 145731 := by decide

set_option maxRecDepth 4000 in
theorem mdCheck_all : ∀ doy < 366, mdCheck doy = true := by decide

/-- The year-of-era extraction lands in the right year: the computed
year's start is at or before `doe`, and the offset into the year is
below 366. -/
theorem year_partition {doe : Nat} (h : doe < 146097) :
    ysOf (fOf doe) ≤ doe ∧ doe - ysOf (fOf doe) < 366 ∧ fOf doe ≤ 399 := by
  have hle : fOf doe ≤ 399 := by
    have := fOf_mono (Nat.le_of_lt_succ h)
    rw [fOf_top] at this
    exact this
  have hlow : ysOf (fOf doe) ≤ doe := by
    by_contra hlt
    push_neg at hlt
    rcases Nat.eq_zero_or_pos (fOf doe) with h0 | hpos
    · rw [h0] at hlt
      simp [ysOf] at hlt
    · have h1 : doe ≤ ysOf (fOf doe) - 1 := by omega
      have h2 : fOf doe ≤ fOf (ysOf (fOf doe) - 1) := fOf_mono h1
      have h3 : fOf (ysOf (fOf doe - 1 + 1) - 1) = fOf doe - 1 :=
        fOf_ys_hi (fOf doe - 1) (by omega)
      have h4 : fOf doe - 1 + 1 = fOf doe := by omega
      rw [h4] at h3
      omega
  refine ⟨hlow, ?_, hle⟩
  rcases Nat.lt_or_ge (fOf doe) 399 with h399 | h399
  · have hhi : doe < ysOf (fOf doe + 1) := by
      by_contra hge
      push_neg at hge
      have h2 : fOf (ysOf (fOf doe + 1)) ≤ fOf doe := fOf_mono hge
      have h3 : fOf (ysOf (fOf doe + 1)) = fOf doe + 1 :=
        fOf_ys_lo (fOf doe + 1) (by omega)
      omega
    have := (ysOf_gap (fOf doe) (by omega)).1
    omega
  · have he : fOf doe = 399 := by omega
    rw [he, ysOf_399]
    rw [he, ysOf_399] at hlow
    omega

/-- Exact inversion of the civil-date split, with the field bounds the
string codec needs; `z` is the shifted day number (days + 719468),
covering the representable range up to 9999-12-31. -/
theorem civil_inverse {z : Nat} (h : z < 3652365) :
    daysFromCivil (civilFromDays z).1 (civilFromDays z).2.1 (civilFromDays z).2.2 =
      (z : Int) - 719468 ∧
    (civilFromDays z).1 < 10000 ∧
    1 ≤ (civilFromDays z).2.1 ∧ (civilFromDays z).2.1 ≤ 12 ∧
    1 ≤ (civilFromDays z).2.2 ∧ (civilFromDays z).2.2 ≤ 31 := by
  have hdm : 146097 * (z / 146097) + z % 146097 = z := Nat.div_add_mod z 146097
  have hdoe : z % 146097 < 146097 := Nat.mod_lt z (by norm_num)
  have hera : z / 146097 ≤ 24 := by omega
  obtain ⟨hlo, hdoy366, hyoe⟩ := year_partition hdoe
  have hmd := mdCheck_all ((z % 146097) - ysOf (fOf (z % 146097))) hdoy366
  set doe := z % 146097 with hdoe_def
  set era := z / 146097 with hera_def
  set yoe := fOf doe with hyoe_def
  set doy := doe - ysOf yoe with hdoy_def
  simp only [mdCheck, Bool.and_eq_true, beq_iff_eq, decide_eq_true_eq,
    decide_eq_decide] at hmd
  set mp := (5 * doy + 2) / 153 with hmp_def
  set dd := doy - (153 * mp + 2) / 5 + 1 with hdd_def
  set m := if mp < 10 then mp + 3 else mp - 9 with hm_def
  obtain ⟨⟨⟨⟨⟨hrecon, hm1⟩, hm12⟩, hd1⟩, hd31⟩, hm2iff⟩ := hmd
  have hcfd : civilFromDays z = (if m ≤ 2 then yoe + era * 400 + 1 else yoe + era * 400, m, dd) := by
    simp only [civilFromDays]
  rw [hcfd]
  have hy10000 : (if m ≤ 2 then yoe + era * 400 + 1 else yoe + era * 400) < 10000 := by
    rcases Nat.lt_or_ge era 24 with h24 | h24
    · split <;> omega
    · have hera24 : era = 24 := by omega
      have hdoe_bound : doe ≤ 146036 := by omega
      split
      · rename_i hmle
        have h306 : 306 ≤ doy := hm2iff.mp hmle
        rcases Nat.lt_or_ge yoe 399 with h398 | h399
        · omega
        · have he : yoe = 399 := by omega
          rw [he, ysOf_399] at hdoy_def
          omega
      · omega
  refine ⟨?_, hy10000, hm1, hm12, hd1, hd31⟩
  simp only [daysFromCivil]
  have hyAdj : (if m ≤ 2 then
      (if m ≤ 2 then yoe + era * 400 + 1 else yoe + era * 400) - 1
    else (if m ≤ 2 then yoe + era * 400 + 1 else yoe + era * 400)) = yoe + 400 * era := by
    by_cases hc : m ≤ 2 <;> simp [hc] <;> omega
  rw [hyAdj]
  have hdiv : (yoe + 400 * era) / 400 = era := by
    rw [Nat.add_mul_div_left yoe era (by norm_num)]
    have h0 : yoe / 400 = 0 := Nat.div_eq_of_lt (by omega)
    omega
  have hmod : (yoe + 400 * era) % 400 = yoe := by
    rw [Nat.add_mul_mod_self_left]
    exact Nat.mod_eq_of_lt (by omega)
  rw [hdiv, hmod]
  rw [hrecon]
  have hz : ((146097 * era + doe : Nat) : Int) = (z : Int) := by
    exact_mod_cast congrArg (Nat.cast : Nat → Int) hdm
  have hys_le : ysOf yoe ≤ doe := hlo
  have hfin : ysOf yoe + doy = doe := by omega
  rw [hfin]
  omega

theorem digitChar_isDigit : ∀ n < 10, (Nat.digitChar n).isDigit = true := by decide

theorem digitChar_toNat : ∀ n < 10, (Nat.digitChar n).toNat = 48 + n := by decide

theorem scanTsL_cons (y1 y2 y3 y4 a1 m1 m2 a2 d1 d2 a3 h1 h2 a4 i1 i2 a5 s1 s2 a6 : Char) :
    scanTsL [y1, y2, y3, y4, a1, m1, m2, a2, d1, d2, a3, h1, h2, a4, i1, i2, a5, s1, s2, a6] =
      (if y1.isDigit ∧ y2.isDigit ∧ y3.isDigit ∧ y4.isDigit ∧
         m1.isDigit ∧ m2.isDigit ∧ d1.isDigit ∧ d2.isDigit ∧
         h1.isDigit ∧ h2.isDigit ∧ i1.isDigit ∧ i2.isDigit ∧
         s1.isDigit ∧ s2.isDigit ∧
         a1 = '-' ∧ a2 = '-' ∧ a3 = 'T' ∧ a4 = ':' ∧ a5 = ':' ∧ a6 = 'Z' then
        some (val2 y1 y2 * 100 + val2 y3 y4, val2 m1 m2, val2 d1 d2,
          val2 h1 h2, val2 i1 i2, val2 s1 s2)
      else none) := rfl

theorem scan_render (y mo dd hh mi sec : Nat) (hy : y < 10000) (hmo : mo < 100)
    (hdd : dd < 100) (hhh : hh < 100) (hmi : mi < 100) (hsec : sec < 100) :
    scanTs (String.mk (pad4L y ++ '-' :: pad2L mo ++ '-' :: pad2L dd ++
      'T' :: pad2L hh ++ ':' :: pad2L mi ++ ':' :: pad2L sec ++ ['Z'])) =
      some (y, mo, dd, hh, mi, sec) := by
  simp only [pad4L, if_pos hy, pad2L, scanTs, List.cons_append, List.nil_append]
  rw [scanTsL_cons, if_pos]
  · simp only [val2, Option.some.injEq, Prod.mk.injEq]
    rw [digitChar_toNat _ (by omega), digitChar_toNat _ (by omega),
      digitChar_toNat _ (by omega), digitChar_toNat _ (by omega),
      digitChar_toNat _ (by omega), digitChar_toNat _ (by omega),
      digitChar_toNat _ (by omega), digitChar_toNat _ (by omega),
      digitChar_toNat _ (by omega), digitChar_toNat _ (by omega),
      digitChar_toNat _ (by omega), digitChar_toNat _ (by omega),
      digitChar_toNat _ (by omega), digitChar_toNat _ (by omega)]
    refine ⟨by omega, by omega, by omega, by omega, by omega, by omega⟩
  · exact ⟨digitChar_isDigit _ (by omega), digitChar_isDigit _ (by omega),
      digitChar_isDigit _ (by omega), digitChar_isDigit _ (by omega),
      digitChar_isDigit _ (by omega), digitChar_isDigit _ (by omega),
      digitChar_isDigit _ (by omega), digitChar_isDigit _ (by omega),
      digitChar_isDigit _ (by omega), digitChar_isDigit _ (by omega),
      digitChar_isDigit _ (by omega), digitChar_isDigit _ (by omega),
      digitChar_isDigit _ (by omega), digitChar_isDigit _ (by omega),
      rfl, rfl, rfl, rfl, rfl, rfl⟩

/-- The timestamp string codec inverts exactly on whole seconds in
[1970-01-01, 9999-12-31]: scanning the rendered string recovers the
`gmtime` components, and the `mktime` recombination at UTC offset 0
recovers the original epoch value. -/
theorem ts_codec (s : Nat) (hs : s < 253402300800) :
    scanTs (renderTs (s : Int)) = some (gmtimeModel (s : Int)) ∧
    mkTimeModel 0 (gmtimeModel (s : Int)).1 (gmtimeModel (s : Int)).2.1
      (gmtimeModel (s : Int)).2.2.1 (gmtimeModel (s : Int)).2.2.2.1
      (gmtimeModel (s : Int)).2.2.2.2.1 (gmtimeModel (s : Int)).2.2.2.2.2 = (s : Int) := by
  have hz : (((s : Int) / 86400 + 719468).toNat) = s / 86400 + 719468 := by omega
  have hzlt : s / 86400 + 719468 < 3652365 := by omega
  have hsod : (((s : Int) % 86400).toNat) = s % 86400 := by omega
  obtain ⟨hinv, hy, hm1, hm12, hd1, hd31⟩ := civil_inverse (z := s / 86400 + 719468) hzlt
  have hgm : gmtimeModel (s : Int) =
      ((civilFromDays (s / 86400 + 719468)).1, (civilFromDays (s / 86400 + 719468)).2.1,
       (civilFromDays (s / 86400 + 719468)).2.2,
       s % 86400 / 3600, s % 86400 % 3600 / 60, s % 86400 % 60) := by
    simp only [gmtimeModel, hz, hsod]
  constructor
  · rw [hgm]
    have hrend : renderTs (s : Int) =
        String.mk (pad4L (civilFromDays (s / 86400 + 719468)).1 ++
          '-' :: pad2L (civilFromDays (s / 86400 + 719468)).2.1 ++
          '-' :: pad2L (civilFromDays (s / 86400 + 719468)).2.2 ++
          'T' :: pad2L (s % 86400 / 3600) ++ ':' :: pad2L (s % 86400 % 3600 / 60) ++
          ':' :: pad2L (s % 86400 % 60) ++ ['Z']) := by
      simp only [renderTs, hgm]
    rw [hrend]
    exact scan_render _ _ _ _ _ _ hy (by omega) (by omega) (by omega) (by omega) (by omega)
  · rw [hgm]
    simp only [mkTimeModel]
    rw [hinv]
    have h1 : ((s / 86400 + 719468 : Nat) : Int) - 719468 = ((s / 86400 : Nat) : Int) := by
      omega
    rw [h1]
    omega

theorem jget_obj_jsetEntries (entries : List (String × Json)) (k : String) (v : Json) :
    jget (.obj (jsetEntries entries k v)) k = v := by
  induction entries with
  | nil => simp [jget, jsetEntries]
  | cons hd tl ih =>
      obtain ⟨k0, w⟩ := hd
      by_cases hk : k0 = k
      · simp [jsetEntries, hk, jget]
      · simp only [jsetEntries, if_neg hk]
        simp only [jget, List.find?] at ih ⊢
        simp [hk]
        exact ih

theorem jget_jset_self (j : Json) (k : String) (v : Json) : jget (jset j k v) k = v := by
  cases j <;> simp [jset, jget, jget_obj_jsetEntries]
  case obj entries => exact jget_obj_jsetEntries entries k v

theorem jget_obj_jsetEntries_ne (entries : List (String × Json)) (k1 k2 : String)
    (v : Json) (h : k1 ≠ k2) :
    jget (.obj (jsetEntries entries k1 v)) k2 = jget (.obj entries) k2 := by
  induction entries with
  | nil => simp [jget, jsetEntries, List.find?, h]
  | cons hd tl ih =>
      obtain ⟨k0, w⟩ := hd
      by_cases hk : k0 = k1
      · subst hk
        simp [jsetEntries, jget, List.find?, h]
      · simp only [jsetEntries, if_neg hk]
        by_cases hk2 : k0 = k2
        · simp [jget, List.find?, hk2]
        · simp only [jget, List.find?] at ih ⊢
          simp [hk2]
          exact ih

theorem jget_jset_ne (j : Json) (k1 k2 : String) (v : Json) (h : k1 ≠ k2) :
    jget (jset j k1 v) k2 = jget j k2 := by
  cases j <;> simp [jset, jget, List.find?, h, jget_obj_jsetEntries_ne]
  case obj entries => exact jget_obj_jsetEntries_ne entries k1 k2 v h

theorem jcontains_obj_jsetEntries (entries : List (String × Json)) (k : String) (v : Json) :
    jcontains (.obj (jsetEntries entries k v)) k = true := by
  induction entries with
  | nil => simp [jcontains, jsetEntries]
  | cons hd tl ih =>
      obtain ⟨k0, w⟩ := hd
      by_cases hk : k0 = k
      · simp [jsetEntries, hk, jcontains]
      · simp only [jsetEntries, if_neg hk]
        simp only [jcontains] at ih ⊢
        rw [List.find?_cons_of_neg]
        · exact ih
        · simp [hk]

theorem jcontains_jset_self (j : Json) (k : String) (v : Json) :
    jcontains (jset j k v) k = true := by
  cases j
  case obj entries => exact jcontains_obj_jsetEntries entries k v
  all_goals simp [jset, jcontains]

theorem jcontains_obj_jsetEntries_ne (entries : List (String × Json)) (k1 k2 : String)
    (v : Json) (h : k1 ≠ k2) :
    jcontains (.obj (jsetEntries entries k1 v)) k2 = jcontains (.obj entries) k2 := by
  induction entries with
  | nil => simp [jcontains, jsetEntries, List.find?, h]
  | cons hd tl ih =>
      obtain ⟨k0, w⟩ := hd
      by_cases hk : k0 = k1
      · subst hk
        simp [jsetEntries, jcontains, List.find?, h]
      · simp only [jsetEntries, if_neg hk]
        by_cases hk2 : k0 = k2
        · simp [jcontains, List.find?, hk2]
        · simp only [jcontains] at ih ⊢
          rw [List.find?_cons_of_neg, List.find?_cons_of_neg]
          · exact ih
          · simp [hk2]
          · simp [hk2]

theorem jcontains_jset_ne (j : Json) (k1 k2 : String) (v : Json) (h : k1 ≠ k2) :
    jcontains (jset j k1 v) k2 = jcontains j k2 := by
  cases j
  case obj entries => exact jcontains_obj_jsetEntries_ne entries k1 k2 v h
  all_goals simp [jset, jcontains, List.find?, h]

/-! Helper lemmas: JSON encode/decode plumbing. -/

theorem jcontains_ite (c : Prop) [Decidable c] (a b : Json) (k : String) :
    jcontains (ite c a b) k = ite c (jcontains a k) (jcontains b k) := by
  split <;> rfl

theorem jget_ite (c : Prop) [Decidable c] (a b : Json) (k : String) :
    jget (ite c a b) k = ite c (jget a k) (jget b k) := by
  split <;> rfl

theorem sev_roundtrip (s : Severity) :
    parse_severity (severity_to_string s) = .ok s := by
  cases s <;> rfl

theorem dt_roundtrip (d : DeviceType) :
    parse_device_type (device_type_to_string d) = .ok d := by
  cases d <;> rfl

theorem decode_enc_md (md : List (String × String)) :
    decodeStrMap (md.map (fun kv => (kv.1, .str kv.2))) = .ok md := by
  induction md with
  | nil => rfl
  | cons hd tl ih =>
      simp [decodeStrMap, jasString, ih]
      rfl

/-- What each field of the serialized object contains: the mandatory
fields are always present, the optional ones exactly when non-empty. -/
theorem enc_fields (e : LogEntry) :
    jcontains e.to_json "timestamp" = true ∧
    jget e.to_json "timestamp" = .str (renderTs (to_time_t e.timestamp)) ∧
    jcontains e.to_json "severity" = true ∧
    jget e.to_json "severity" = .str (severity_to_string e.severity) ∧
    jcontains e.to_json "message" = true ∧
    jget e.to_json "message" = .str e.message ∧
    jcontains e.to_json "device_type" = true ∧
    jget e.to_json "device_type" = .str (device_type_to_string e.device_type) ∧
    jcontains e.to_json "facility" = decide (e.facility ≠ "") ∧
    jget e.to_json "facility" = (if e.facility ≠ "" then .str e.facility else .null) ∧
    jcontains e.to_json "hostname" = decide (e.hostname ≠ "") ∧
    jget e.to_json "hostname" = (if e.hostname ≠ "" then .str e.hostname else .null) ∧
    jcontains e.to_json "process_name" = decide (e.process_name ≠ "") ∧
    jget e.to_json "process_name" =
      (if e.process_name ≠ "" then .str e.process_name else .null) ∧
    jcontains e.to_json "process_id" = e.process_id.isSome ∧
    jget e.to_json "process_id" =
      (e.process_id.elim .null (fun pid => .num (pid : Int))) ∧
    jcontains e.to_json "raw_message" = decide (e.raw_message ≠ "") ∧
    jget e.to_json "raw_message" =
      (if e.raw_message ≠ "" then .str e.raw_message else .null) ∧
    jget e.to_json "metadata" =
      (if e.metadata ≠ [] then
        .obj (e.metadata.map (fun kv => (kv.1, .str kv.2))) else .null) := by
  obtain ⟨ts, sev, msg, fac, host, pn, pid, dt, raw, md⟩ := e
  cases pid <;>
    simp only [LogEntry.to_json, Option.elim, jget_ite, jget_jset_self, jget_jset_ne,
      jcontains_ite, jcontains_jset_self, jcontains_jset_ne,
      ne_eq, String.reduceEq, not_false_eq_true, ite_self,
      Option.isSome, and_self, decide_not] <;>
    refine ⟨?_, ?_, ?_, ?_, ?_, ?_, ?_, ?_, ?_, ?_, ?_, ?_, ?_, ?_, ?_, ?_, ?_, ?_, ?_⟩ <;>
    first
      | trivial
      | (split <;> rfl)
      | simp [jget, jcontains]

/-- Decoding step for the timestamp field of an encoded record; `u` is
the whole-second epoch value of the original timestamp. -/
theorem fj_ts_step (j : Json) (ts u : Int)
    (hc : jcontains j "timestamp" = true)
    (hg : jget j "timestamp" = .str (renderTs (to_time_t ts)))
    (hts : to_time_t ts = u)
    (hscan : scanTs (renderTs u) = some (gmtimeModel u))
    (hmk : mkTimeModel 0 (gmtimeModel u).1 (gmtimeModel u).2.1
      (gmtimeModel u).2.2.1 (gmtimeModel u).2.2.2.1
      (gmtimeModel u).2.2.2.2.1 (gmtimeModel u).2.2.2.2.2 = u)
    (hback : 1000 * u = ts) (entry : LogEntry) :
    from_json_timestamp 0 j entry = .ok (entry.set_timestamp ts) := by
  rw [from_json_timestamp, if_pos (by rw [hc]), hg, hts]
  simp only [jasString, bind, Except.bind, hscan, hmk, hback]
  rfl

/-- Decoding step for the severity field of an encoded record. -/
theorem fj_sev_step (j : Json) (sev : Severity)
    (hc : jcontains j "severity" = true)
    (hg : jget j "severity" = .str (severity_to_string sev)) (entry : LogEntry) :
    from_json_severity j entry = entry.set_severity sev := by
  rw [from_json_severity, if_pos (by rw [hc]), hg]
  simp only [jasString, bind, Except.bind, sev_roundtrip]

/-- Decoding step for the device-type field of an encoded record. -/
theorem fj_dt_step (j : Json) (dt : DeviceType)
    (hc : jcontains j "device_type" = true)
    (hg : jget j "device_type" = .str (device_type_to_string dt)) (entry : LogEntry) :
    from_json_device_type j entry = entry.set_device_type dt := by
  rw [from_json_device_type, if_pos (by rw [hc]), hg]
  simp only [jasString, bind, Except.bind, dt_roundtrip]

/-- Decoding step for the message field of an encoded record. -/
theorem fj_msg_step (j : Json) (msg : String)
    (hc : jcontains j "message" = true)
    (hg : jget j "message" = .str msg) (entry : LogEntry) :
    from_json_message j entry = .ok (entry.set_message msg) := by
  rw [from_json_message, if_pos (by rw [hc]), hg]
  rfl

/-- Decoding step for the facility field: on an entry whose facility is
still the default, the decode reproduces the original value whether or
not it was serialized. -/
theorem fj_fac_step (j : Json) (fac : String)
    (hc : jcontains j "facility" = decide (fac ≠ ""))
    (hg : jget j "facility" = (if fac ≠ "" then .str fac else .null))
    (entry : LogEntry) (hemp : entry.facility = "") :
    from_json_facility j entry = .ok (entry.set_facility fac) := by
  by_cases hx : fac = ""
  · rw [from_json_facility, hx, if_neg (by rw [hc]; simp [hx])]
    have : entry.set_facility "" = entry := by
      cases entry
      simp_all [LogEntry.set_facility]
    rw [this]
    rfl
  · rw [from_json_facility, if_pos (by rw [hc]; simp [hx]), hg, if_pos hx]
    rfl

/-- Decoding step for the hostname field (same scheme as facility). -/
theorem fj_host_step (j : Json) (host : String)
    (hc : jcontains j "hostname" = decide (host ≠ ""))
    (hg : jget j "hostname" = (if host ≠ "" then .str host else .null))
    (entry : LogEntry) (hemp : entry.hostname = "") :
    from_json_hostname j entry = .ok (entry.set_hostname host) := by
  by_cases hx : host = ""
  · rw [from_json_hostname, hx, if_neg (by rw [hc]; simp [hx])]
    have : entry.set_hostname "" = entry := by
      cases entry
      simp_all [LogEntry.set_hostname]
    rw [this]
    rfl
  · rw [from_json_hostname, if_pos (by rw [hc]; simp [hx]), hg, if_pos hx]
    rfl

/-- Decoding step for the process-name field (same scheme as
facility). -/
theorem fj_pn_step (j : Json) (pn : String)
    (hc : jcontains j "process_name" = decide (pn ≠ ""))
    (hg : jget j "process_name" = (if pn ≠ "" then .str pn else .null))
    (entry : LogEntry) (hemp : entry.process_name = "") :
    from_json_process_name j entry = .ok (entry.set_process_name pn) := by
  by_cases hx : pn = ""
  · rw [from_json_process_name, hx, if_neg (by rw [hc]; simp [hx])]
    have : entry.set_process_name "" = entry := by
      cases entry
      simp_all [LogEntry.set_process_name]
    rw [this]
    rfl
  · rw [from_json_process_name, if_pos (by rw [hc]; simp [hx]), hg, if_pos hx]
    rfl

/-- Decoding step for the process-id field: uint32 values survive the
modular cast. -/
theorem fj_pid_step (j : Json) (pid : Option Nat)
    (hc : jcontains j "process_id" = pid.isSome)
    (hg : jget j "process_id" = pid.elim .null (fun p => .num (p : Int)))
    (hlt : ∀ p, pid = some p → p < 2 ^ 32)
    (entry : LogEntry) (hemp : entry.process_id = none) :
    from_json_process_id j entry = .ok { entry with process_id := pid } := by
  cases hp : pid with
  | none =>
      rw [from_json_process_id, if_neg (by rw [hc, hp]; simp)]
      have : { entry with process_id := (none : Option Nat) } = entry := by
        cases entry
        simp_all
      rw [this]
      rfl
  | some p =>
      have hplt : p < 2 ^ 32 := hlt p hp
      rw [from_json_process_id, if_pos (by rw [hc, hp]; rfl), hg, hp]
      simp only [Option.elim, jasNum, bind, Except.bind]
      have hmod : (((p : Int)) % (2 ^ 32 : Int)).toNat = p := by omega
      rw [hmod]
      rfl

/-- Decoding step for the raw-message field (same scheme as
facility). -/
theorem fj_raw_step (j : Json) (raw : String)
    (hc : jcontains j "raw_message" = decide (raw ≠ ""))
    (hg : jget j "raw_message" = (if raw ≠ "" then .str raw else .null))
    (entry : LogEntry) (hemp : entry.raw_message = "") :
    from_json_raw_message j entry = .ok (entry.set_raw_message raw) := by
  by_cases hx : raw = ""
  · rw [from_json_raw_message, hx, if_neg (by rw [hc]; simp [hx])]
    have : entry.set_raw_message "" = entry := by
      cases entry
      simp_all [LogEntry.set_raw_message]
    rw [this]
    rfl
  · rw [from_json_raw_message, if_pos (by rw [hc]; simp [hx]), hg, if_pos hx]
    rfl

/-- Decoding step for the metadata field: the encoded object decodes to
the original map; an omitted field leaves the default empty map. -/
theorem fj_md_step (j : Json) (md : List (String × String))
    (hg : jget j "metadata" =
      (if md ≠ [] then .obj (md.map (fun kv => (kv.1, .str kv.2))) else .null))
    (entry : LogEntry) (hemp : entry.metadata = []) :
    from_json_metadata j entry = .ok { entry with metadata := md } := by
  by_cases hx : md = []
  · subst hx
    rw [from_json_metadata, hg]
    have h2 : { entry with metadata := ([] : List (String × String)) } = entry := by
      cases entry
      simp_all
    simp only [ne_eq, not_true_eq_false, if_false, h2]
    rfl
  · rw [from_json_metadata, hg, if_pos hx]
    simp only [decode_enc_md, bind, Except.bind]
    rfl

/-! Claim C9. -/

/-- C9 counterexample: serializing and deserializing a `LogRecord`
whose populated timestamp has a sub-second component does not preserve
the timestamp exactly — `to_json` truncates to whole seconds
(`to_time_t`), so 1500 ms comes back as 1000 ms even at UTC offset 0.
This refutes the claim that every originally-populated field (timestamp
among them) survives the round-trip exactly. -/
theorem C9_counterexample :
    LogEntry.from_json 0 (LogEntry.to_json c9CounterEntry) =
      .ok { c9CounterEntry with timestamp := 1000 } ∧
    ({ c9CounterEntry with timestamp := 1000 } : LogEntry) ≠ c9CounterEntry := by
  constructor
  · rfl
  · decide

/-- C9 (amended): a `LogRecord` whose timestamp is a whole number of
seconds in [1970-01-01, 9999-12-31] (and whose process id fits the
record's `std::uint32_t` field) round-trips through
serialize→deserialize exactly when decoding runs at UTC (`mktime`
offset 0): every originally-populated field is preserved and every
originally-empty optional field stays empty. Sub-second timestamps are
truncated to seconds and a non-UTC decode offset shifts the timestamp,
which is all the counterexample forces us to exclude. -/
theorem C9_roundtrip_amended (e : LogEntry) (h0 : 0 ≤ e.timestamp)
    (h1 : e.timestamp % 1000 = 0) (h2 : e.timestamp < 253402300800000)
    (h3 : ∀ p, e.process_id = some p → p < 2 ^ 32) :
    LogEntry.from_json 0 e.to_json = .ok e := by
  obtain ⟨ts, sev, msg, fac, host, pn, pid, dt, raw, md⟩ := e
  simp only at h0 h1 h2 h3
  have hts : to_time_t ts = ((ts.toNat / 1000 : Nat) : Int) := by
    simp only [to_time_t]
    rw [Int.tdiv_eq_ediv_of_dvd (by omega)]
    omega
  have hslt : ts.toNat / 1000 < 253402300800 := by omega
  obtain ⟨hscan, hmk⟩ := ts_codec (ts.toNat / 1000) hslt
  have hback : 1000 * ((ts.toNat / 1000 : Nat) : Int) = ts := by omega
  obtain ⟨hc1, hg1, hc2, hg2, hc3, hg3, hc4, hg4, hc5, hg5, hc6, hg6, hc7, hg7,
    hc8, hg8, hc9, hg9, hg10⟩ :=
    enc_fields (LogEntry.mk ts sev msg fac host pn pid dt raw md)
  simp only at hc1 hg1 hc2 hg2 hc3 hg3 hc4 hg4 hc5 hg5 hc6 hg6 hc7 hg7 hc8 hg8 hc9 hg9 hg10
  rw [LogEntry.from_json]
  rw [fj_ts_step _ ts _ hc1 hg1 hts hscan hmk hback]
  simp only [bind, Except.bind]
  rw [fj_sev_step _ sev hc2 hg2, fj_dt_step _ dt hc4 hg4, fj_msg_step _ msg hc3 hg3]
  simp only [Except.bind]
  rw [fj_fac_step _ fac hc5 hg5 _ rfl]
  simp only [Except.bind]
  rw [fj_host_step _ host hc6 hg6 _ rfl]
  simp only [Except.bind]
  rw [fj_pn_step _ pn hc7 hg7 _ rfl]
  simp only [Except.bind]
  rw [fj_pid_step _ pid hc8 hg8 h3 _ rfl]
  simp only [Except.bind]
  rw [fj_raw_step _ raw hc9 hg9 _ rfl]
  simp only [Except.bind]
  rw [fj_md_step _ md hg10 _ rfl]
  simp only [Except.bind, LogEntry.set_timestamp, LogEntry.set_severity,
    LogEntry.set_device_type, LogEntry.set_message, LogEntry.set_facility,
    LogEntry.set_hostname, LogEntry.set_process_name, LogEntry.set_raw_message]
  rfl

/-- C9 witness: the amended round-trip theorem applied to a concrete
fully-populated record. -/
theorem C9_roundtrip_amended_witness :
    LogEntry.from_json 0 c9WitnessEntry.to_json = .ok c9WitnessEntry :=
  C9_roundtrip_amended c9WitnessEntry (by decide) (by decide) (by decide)
    (by intro p hp; injection hp with h; omega)

/-! Claim C2. -/

/-- C2: contrary to the claim, the script-exposed host helper
`parse_severity` does not return Info (6) on every failure to recognize
its text — on an unrecognized string it calls the strict native
`parse_severity`, whose `std::invalid_argument` propagates uncaught out
of the Lua C function (an error into the calling script); likewise
`parse_device_type` errors instead of returning "Unknown". The
permissive default only covers a missing or non-string argument, shown
by the last two conjuncts. -/
theorem C2_helpers_throw :
    lua_parse_severity [.str "bogus"] = .error "Invalid severity string: bogus" ∧
    lua_parse_device_type [.str "bogus"] = .error "Invalid device type string: bogus" ∧
    lua_parse_severity [] = .ok 6 ∧
    lua_parse_device_type [.boolean true] = .ok "Unknown" :=
  ⟨rfl, rfl, rfl, rfl⟩

/-! Claim C3. -/

/-- C3: contrary to the claim, marshaling a returned table can fail the
whole parse on a malformed field: a `severity` entry that is a string
the strict native `parse_severity` rejects propagates its exception out
of `LuaEngine::parse` instead of leaving the field at its default. The
second conjunct shows the contrast the claim describes working for a
wrong-typed (boolean) severity: the field keeps the default Info and
the parse still succeeds. -/
theorem C3_marshal_throws :
    luaEngineParse true 0 (.ok (.str "ios")) "raw"
      (.ok (.table [(.str "severity", .str "bogus")])) =
      .error "Invalid severity string: bogus" ∧
    luaEngineParse true 0 (.ok (.str "ios")) "raw"
      (.ok (.table [(.str "severity", .boolean true)])) =
      .ok (some
        { timestamp := 0, severity := .Info, message := "", facility := "",
          hostname := "", process_name := "", process_id := none,
          device_type := .CiscoIOS, raw_message := "raw", metadata := [] }) :=
  ⟨rfl, rfl⟩

/-! Claim C4. -/

/-- C4 counterexample: a script whose `can_parse` returns the
(non-boolean) number 0 makes the adapter return true, because
`lua_toboolean` treats every value except `nil` and `false` as true;
this refutes both "false whenever the script returns any non-boolean
value" and "true only when the script returns boolean true". -/
theorem C4_counterexample :
    luaEngineCanParse true (.ok (.num 0)) = true := rfl

/-- C4 (amended): `can_parse` is false when no script is loaded or the
script call errors, and otherwise is the Lua truthiness
(`lua_toboolean`) of the returned value: `nil` and `false` give false,
every other value — including the number 0 and the empty string — gives
true; boolean true in particular gives true. -/
theorem C4_canparse_amended (loaded : Bool) (r : LuaCallResult) :
    luaEngineCanParse loaded r =
      (loaded && (match r with | .ok v => lua_toboolean v | .error _ => false)) := by
  cases loaded <;> cases r <;> rfl

/-! Claim C6. -/

/-- C6: contrary to the claim, native `parse` is not total in the
Option sense: a severity-digit run exceeding the `int` range makes the
Cisco IOS parser's unguarded `std::stoi` throw `std::out_of_range` out
of `parse` (first conjunct), and an oversized priority-digit run does
the same to the generic syslog parser (second conjunct). -/
theorem C6_stoi_overflow :
    ciscoIOSParse env0 "%SYS-99999999999999999999-CONFIG_I: test" =
      .error "stoi: out_of_range" ∧
    genericSyslogParse env0 "<99999999999999999999>hello" =
      .error "stoi: out_of_range" :=
  ⟨rfl, rfl⟩

/-! Claim C5. -/

/-- C5: starting from an engine that is not loaded (a fresh handle),
any failing load — unreadable file, compile error, top-level execution
error, or any of the four required functions missing — returns false,
records a retrievable error message, and leaves `is_script_loaded()`
false: there is no partially-loaded state. -/
theorem C5_load_failure (s : LuaEngineState) (o : ScriptOutcome)
    (hfresh : s.script_loaded = false)
    (hbad : (∃ m, o.compile = .error m) ∨ (∃ m, o.exec = .error m) ∨
      o.has_parse = false ∨ o.has_can_parse = false ∨
      o.has_get_device_type = false ∨ o.has_get_parser_name = false) :
    ((load_script_from_string s o).1 = false ∧
     (load_script_from_string s o).2.script_loaded = false ∧
     ∃ msg, (load_script_from_string s o).2.last_error = some msg) ∧
    ((load_script s none).1 = false ∧
     (load_script s none).2.script_loaded = false ∧
     ∃ msg, (load_script s none).2.last_error = some msg) := by
  obtain ⟨oc, oe, p1, p2, p3, p4⟩ := o
  refine ⟨?_, ?_⟩
  · cases oc with
    | error m => simp [load_script_from_string, setError, hfresh]
    | ok u =>
        cases oe with
        | error m => simp [load_script_from_string, setError, hfresh]
        | ok u2 =>
            cases p1 <;> cases p2 <;> cases p3 <;> cases p4 <;>
              simp_all [load_script_from_string, setError]
  · simp [load_script, setError, hfresh]

/-- C5 witness: loading a script that lacks `get_parser_name` into a
fresh engine fails, records an error, and leaves the engine unloaded;
an unreadable file does the same. -/
theorem C5_load_failure_witness :
    ((load_script_from_string initialEngineState c5BadOutcome).1 = false ∧
     (load_script_from_string initialEngineState c5BadOutcome).2.script_loaded = false ∧
     ∃ msg, (load_script_from_string initialEngineState c5BadOutcome).2.last_error = some msg) ∧
    ((load_script initialEngineState none).1 = false ∧
     (load_script initialEngineState none).2.script_loaded = false ∧
     ∃ msg, (load_script initialEngineState none).2.last_error = some msg) :=
  C5_load_failure initialEngineState c5BadOutcome rfl
    (Or.inr (Or.inr (Or.inr (Or.inr (Or.inr rfl)))))

/-! Claim C7. -/

/-- C7: on the `%LINEPROTO-5-UPDOWN` line, the Cisco IOS parser's
`can_parse` is true and `parse` succeeds (for every environment) with
facility "LINEPROTO", severity Notice (Cisco digit 5), and a message
containing the interface text (the simple-format slice keeps the
leading colon, so containment is the exact property). -/
theorem C7_lineproto (now : Int) (cts bts : String → Int) :
    ciscoIOSCanParse c7Input = true ∧
    ∃ e : LogEntry,
      ciscoIOSParse { now := now, cisco_ts := cts, base_ts := bts } c7Input =
        .ok (some e) ∧
      e.facility = "LINEPROTO" ∧ e.severity = .Notice ∧
      "Interface GigabitEthernet0/1".data <:+: e.message.data := by
  refine ⟨by decide, ?_⟩
  refine
    ⟨{ timestamp := now, severity := .Notice,
       message := ": Line protocol on Interface GigabitEthernet0/1, changed state to down",
       facility := "LINEPROTO", device_type := .CiscoIOS, raw_message := c7Input,
       metadata := [("mnemonic", "UPDOWN"), ("cisco_severity", "5")] },
     rfl, rfl, rfl, ?_⟩
  show "Interface GigabitEthernet0/1".data <:+:
    ": Line protocol on Interface GigabitEthernet0/1, changed state to down".data
  decide

/-! Claim C8. -/

/-- C8 counterexample: parsing the probe input yields `process_name`
"sshd[1234]" — the full RFC 3164 tag including the bracketed pid — not
"sshd" as the claim states, refuting the claim at this concrete
input. -/
theorem C8_counterexample :
    genericSyslogParse env0 c8Input = .ok (some c8Entry) ∧
    c8Entry.process_name ≠ "sshd" := by
  refine ⟨rfl, by decide⟩

/-- C8 (amended): on the probe input, for every environment, the
generic syslog parser yields metadata `facility_code` "4" (34 >> 3),
severity Critical (34 & 7 = 2), hostname "server01", and process_name
"sshd[1234]" — the full syslog tag; the pid suffix is not stripped. -/
theorem C8_rfc3164_amended (now : Int) (cts bts : String → Int) :
    ∃ e : LogEntry,
      genericSyslogParse { now := now, cisco_ts := cts, base_ts := bts } c8Input =
        .ok (some e) ∧
      e.get_metadata "facility_code" = some "4" ∧
      e.severity = .Critical ∧
      e.hostname = "server01" ∧
      e.process_name = "sshd[1234]" := by
  refine
    ⟨{ timestamp := bts "Jan 15 10:30:45", severity := .Critical,
       message := "Accepted password for admin", hostname := "server01",
       process_name := "sshd[1234]", device_type := .GenericSyslog,
       raw_message := c8Input,
       metadata := [("facility_code", "4"), ("syslog_priority", "34"),
         ("format", "RFC3164")] },
     rfl, rfl, rfl, rfl, rfl⟩

/-! Claim C1. -/

theorem parse_standard_format_stamp (env : ParseEnv) (raw : String) (e : LogEntry)
    (h : parse_standard_format env raw = .ok (some e)) :
    e.raw_message = raw ∧ e.device_type = .CiscoIOS := by
  unfold parse_standard_format at h
  rcases hs : searchRE ciscoStandardRE raw.data with _ | caps <;> rw [hs] at h
  · exact absurd h (by simp)
  · simp only [bind, Except.bind] at h
    rcases hst : stoi (capStr caps 3) with m | n <;> rw [hst] at h
    · exact absurd h (by simp)
    · simp only [pure, Except.pure, Except.ok.injEq, Option.some.injEq] at h
      subst h
      constructor <;> (split <;> rfl)

theorem parse_priority_format_stamp (env : ParseEnv) (raw : String) (e : LogEntry)
    (h : parse_priority_format env raw = .ok (some e)) :
    e.raw_message = raw ∧ e.device_type = .CiscoIOS := by
  unfold parse_priority_format at h
  rcases hs : searchRE ciscoPriorityRE raw.data with _ | caps <;> rw [hs] at h
  · exact absurd h (by simp)
  · simp only [bind, Except.bind] at h
    rcases hst : stoi (capStr caps 4) with m | n <;> rw [hst] at h
    · exact absurd h (by simp)
    · simp only [pure, Except.pure, Except.ok.injEq, Option.some.injEq] at h
      subst h
      constructor <;> (split <;> rfl)

theorem parse_simple_format_stamp (env : ParseEnv) (raw : String) (e : LogEntry)
    (h : parse_simple_format env raw = .ok (some e)) :
    e.raw_message = raw ∧ e.device_type = .CiscoIOS := by
  unfold parse_simple_format at h
  rcases hs : searchRE ciscoMsgIdRE raw.data with _ | caps <;> rw [hs] at h
  · exact absurd h (by simp)
  · simp only [bind, Except.bind] at h
    rcases hst : stoi (capStr caps 2) with m | n <;> rw [hst] at h
    · exact absurd h (by simp)
    · simp only [pure, Except.pure, Except.ok.injEq, Option.some.injEq] at h
      subst h
      constructor <;> (split <;> rfl)

theorem ciscoIOSParse_stamp (env : ParseEnv) (raw : String) (e : LogEntry)
    (h : ciscoIOSParse env raw = .ok (some e)) :
    e.raw_message = raw ∧ e.device_type = .CiscoIOS := by
  unfold ciscoIOSParse at h
  by_cases hr : raw = ""
  · rw [if_pos hr] at h
    exact absurd h (by simp [pure, Except.pure])
  · rw [if_neg hr] at h
    simp only [bind, Except.bind] at h
    rcases h1 : parse_standard_format env raw with m | r1 <;> rw [h1] at h
    · exact absurd h (by simp)
    · rcases r1 with _ | e1
      · simp only [bind, Except.bind] at h
        rcases h2 : parse_priority_format env raw with m | r2 <;> rw [h2] at h
        · exact absurd h (by simp)
        · rcases r2 with _ | e2
          · simp only [bind, Except.bind] at h
            rcases h3 : parse_simple_format env raw with m | r3 <;> rw [h3] at h
            · exact absurd h (by simp)
            · rcases r3 with _ | e3
              · exact absurd h (by simp [pure, Except.pure])
              · simp only [pure, Except.pure, Except.ok.injEq, Option.some.injEq] at h
                subst h
                exact parse_simple_format_stamp env raw _ h3
          · simp only [pure, Except.pure, Except.ok.injEq, Option.some.injEq] at h
            subst h
            exact parse_priority_format_stamp env raw _ h2
      · simp only [pure, Except.pure, Except.ok.injEq, Option.some.injEq] at h
        subst h
        exact parse_standard_format_stamp env raw _ h1

theorem genericSyslogParse_stamp (env : ParseEnv) (raw : String) (e : LogEntry)
    (h : genericSyslogParse env raw = .ok (some e)) :
    e.raw_message = raw ∧ e.device_type = .GenericSyslog := by
  unfold genericSyslogParse at h
  by_cases hr : raw = ""
  · rw [if_pos hr] at h
    exact absurd h (by simp [pure, Except.pure])
  · rw [if_neg hr] at h
    rcases h1 : searchRE rfc3164RE raw.data with _ | caps1 <;> rw [h1] at h
    · rcases h2 : searchRE rfc5424RE raw.data with _ | caps2 <;> rw [h2] at h
      · rcases h3 : searchRE syslogPriorityRE raw.data with _ | caps3 <;> rw [h3] at h
        · exact absurd h (by simp [pure, Except.pure])
        · simp only [bind, Except.bind] at h
          rcases hst : stoi (capStr caps3 1) with m | n <;> rw [hst] at h
          · exact absurd h (by simp)
          · simp only [pure, Except.pure, Except.ok.injEq, Option.some.injEq] at h
            subst h
            constructor <;> rfl
      · simp only [bind, Except.bind] at h
        rcases hst : stoi (capStr caps2 1) with m | n <;> rw [hst] at h
        · exact absurd h (by simp)
        · simp only [pure, Except.pure, Except.ok.injEq, Option.some.injEq] at h
          subst h
          constructor <;> (repeat' split) <;> rfl
    · simp only [bind, Except.bind] at h
      rcases hst : stoi (capStr caps1 1) with m | n <;> rw [hst] at h
      · exact absurd h (by simp)
      · simp only [pure, Except.pure, Except.ok.injEq, Option.some.injEq] at h
        subst h
        constructor <;> rfl

theorem ciscoNXOSParse_stamp (env : ParseEnv) (raw : String) (e : LogEntry)
    (h : ciscoNXOSParse env raw = .ok (some e)) :
    e.raw_message = raw ∧ e.device_type = .CiscoNXOS := by
  unfold ciscoNXOSParse at h
  by_cases hr : raw = ""
  · rw [if_pos hr] at h
    exact absurd h (by simp)
  · rw [if_neg hr] at h
    simp only [Except.ok.injEq, Option.some.injEq] at h
    subst h
    constructor <;> rfl

theorem ciscoASAParse_stamp (env : ParseEnv) (raw : String) (e : LogEntry)
    (h : ciscoASAParse env raw = .ok (some e)) :
    e.raw_message = raw ∧ e.device_type = .CiscoASA := by
  unfold ciscoASAParse at h
  by_cases hr : raw = ""
  · rw [if_pos hr] at h
    exact absurd h (by simp)
  · rw [if_neg hr] at h
    simp only [Except.ok.injEq, Option.some.injEq] at h
    subst h
    constructor <;> rfl

theorem mdfold_stamp (l : List (LuaValue × LuaValue)) (entry : LogEntry) :
    (l.foldl (fun e kv =>
      if lua_isstring kv.1 ∧ lua_isstring kv.2 then
        e.add_metadata (lua_tostring kv.1) (lua_tostring kv.2)
      else e) entry).raw_message = entry.raw_message ∧
    (l.foldl (fun e kv =>
      if lua_isstring kv.1 ∧ lua_isstring kv.2 then
        e.add_metadata (lua_tostring kv.1) (lua_tostring kv.2)
      else e) entry).device_type = entry.device_type := by
  induction l generalizing entry with
  | nil => exact ⟨rfl, rfl⟩
  | cons hd tl ih =>
      simp only [List.foldl_cons]
      constructor
      · rw [(ih _).1]
        split <;> rfl
      · rw [(ih _).2]
        split <;> rfl

theorem marshal_severity_stamp (f : LuaValue) (entry e2 : LogEntry)
    (h : marshal_severity f entry = .ok e2) :
    e2.raw_message = entry.raw_message ∧ e2.device_type = entry.device_type := by
  unfold marshal_severity at h
  split_ifs at h
  · simp only [bind, Except.bind] at h
    rcases hps : parse_severity (lua_tostring f) with m | sv <;> rw [hps] at h
    · exact absurd h (by simp)
    · simp only [pure, Except.pure, Except.ok.injEq] at h
      subst h
      exact ⟨rfl, rfl⟩
  · simp only [pure, Except.pure, Except.ok.injEq] at h
    subst h
    exact ⟨rfl, rfl⟩
  · simp only [pure, Except.pure, Except.ok.injEq] at h
    subst h
    exact ⟨rfl, rfl⟩

theorem luaEngineParse_stamp (loaded : Bool) (now : Int) (g p : LuaCallResult)
    (raw : String) (dt : DeviceType) (e : LogEntry)
    (hg : luaGetDeviceType loaded g = .ok dt)
    (h : luaEngineParse loaded now g raw p = .ok (some e)) :
    e.raw_message = raw ∧ e.device_type = dt := by
  unfold luaEngineParse at h
  cases loaded with
  | false => exact absurd h (by simp [pure, Except.pure])
  | true =>
      simp only [Bool.not_true, decide_False] at h
      rcases p with m | v
      · exact absurd h (by simp [pure, Except.pure])
      · cases v with
        | nil => exact absurd h (by simp [pure, Except.pure])
        | boolean b => exact absurd h (by simp [pure, Except.pure, lua_istable])
        | num n => exact absurd h (by simp [pure, Except.pure, lua_istable])
        | str s => exact absurd h (by simp [pure, Except.pure, lua_istable])
        | table entries =>
            simp only [lua_istable, not_true, if_false, bind, Except.bind,
              Bool.false_eq_true, not_false_eq_true, if_true, reduceIte] at h
            rcases hms : marshal_severity
                (lua_getfield (.table entries) "severity")
                (if lua_isnumber (lua_getfield (.table entries) "timestamp") then
                  LogEntry.set_timestamp {}
                    (lua_tonumber (lua_getfield (.table entries) "timestamp") * 1000)
                else LogEntry.set_timestamp {} now) with m | e2
            all_goals rw [hms] at h
            · exact absurd h (by simp)
            · rw [hg] at h
              simp only [pure, Except.pure, Except.ok.injEq, Option.some.injEq] at h
              subst h
              constructor
              · split
                · exact (mdfold_stamp _ _).1
                · rfl
              · split
                · exact (mdfold_stamp _ _).2
                · rfl

/-- C1: every successful parse stamps the record with the verbatim
input as `raw_message` and with the parser's own device type — for each
native parser (through `BaseParser::create_log_entry`) and for the
scripted path (where `LuaEngine::parse` stamps whatever the script's
`get_device_type()` resolves to), regardless of what the parser's or
script's own logic put in the record. -/
theorem C1_raw_and_device_stamp (env : ParseEnv) (raw : String) (e : LogEntry) :
    (ciscoIOSParse env raw = .ok (some e) →
      e.raw_message = raw ∧ e.device_type = .CiscoIOS) ∧
    (genericSyslogParse env raw = .ok (some e) →
      e.raw_message = raw ∧ e.device_type = .GenericSyslog) ∧
    (ciscoNXOSParse env raw = .ok (some e) →
      e.raw_message = raw ∧ e.device_type = .CiscoNXOS) ∧
    (ciscoASAParse env raw = .ok (some e) →
      e.raw_message = raw ∧ e.device_type = .CiscoASA) ∧
    (∀ (loaded : Bool) (now : Int) (g p : LuaCallResult) (dt : DeviceType),
      luaGetDeviceType loaded g = .ok dt →
      luaEngineParse loaded now g raw p = .ok (some e) →
      e.raw_message = raw ∧ e.device_type = dt) :=
  ⟨ciscoIOSParse_stamp env raw e, genericSyslogParse_stamp env raw e,
   ciscoNXOSParse_stamp env raw e, ciscoASAParse_stamp env raw e,
   fun loaded now g p dt hg h => luaEngineParse_stamp loaded now g p raw dt e hg h⟩

/-- C1 witness: the stamping property observed on one concrete parse of
each of the five parser paths. -/
theorem C1_raw_and_device_stamp_witness :
    ((LogEntry.mk 0 .Notice ": ok" "SYS" "" "" none .CiscoIOS "%SYS-5-CONFIG_I: ok"
        [("mnemonic", "CONFIG_I"), ("cisco_severity", "5")]).raw_message =
          "%SYS-5-CONFIG_I: ok" ∧
      (LogEntry.mk 0 .Notice ": ok" "SYS" "" "" none .CiscoIOS "%SYS-5-CONFIG_I: ok"
        [("mnemonic", "CONFIG_I"), ("cisco_severity", "5")]).device_type = .CiscoIOS) ∧
    ((LogEntry.mk 0 .Critical "x" "" "" "" none .GenericSyslog "<34>x"
        [("facility_code", "4"), ("syslog_priority", "34"),
         ("format", "basic_priority")]).raw_message = "<34>x" ∧
      (LogEntry.mk 0 .Critical "x" "" "" "" none .GenericSyslog "<34>x"
        [("facility_code", "4"), ("syslog_priority", "34"),
         ("format", "basic_priority")]).device_type = .GenericSyslog) ∧
    ((LogEntry.mk 0 .Info "hello" "" "" "" none .CiscoNXOS "hello"
        [("parser_note", "Basic NX-OS parsing - needs enhancement")]).raw_message =
          "hello" ∧
      (LogEntry.mk 0 .Info "hello" "" "" "" none .CiscoNXOS "hello"
        [("parser_note", "Basic NX-OS parsing - needs enhancement")]).device_type =
          .CiscoNXOS) ∧
    ((LogEntry.mk 0 .Info "hello" "" "" "" none .CiscoASA "hello"
        [("parser_note", "Basic ASA parsing - needs enhancement")]).raw_message =
          "hello" ∧
      (LogEntry.mk 0 .Info "hello" "" "" "" none .CiscoASA "hello"
        [("parser_note", "Basic ASA parsing - needs enhancement")]).device_type =
          .CiscoASA) ∧
    ((LogEntry.mk 0 .Info "" "" "" "" none .CiscoIOS "r" []).raw_message = "r" ∧
      (LogEntry.mk 0 .Info "" "" "" "" none .CiscoIOS "r" []).device_type = .CiscoIOS) :=
  ⟨(C1_raw_and_device_stamp env0 "%SYS-5-CONFIG_I: ok" _).1 rfl,
   (C1_raw_and_device_stamp env0 "<34>x" _).2.1 rfl,
   (C1_raw_and_device_stamp env0 "hello" _).2.2.1 rfl,
   (C1_raw_and_device_stamp env0 "hello" _).2.2.2.1 rfl,
   (C1_raw_and_device_stamp env0 "r" _).2.2.2.2 true 0 (.ok (.str "ios"))
     (.ok (.table [])) .CiscoIOS rfl rfl⟩

/-! Claim C10. -/

theorem insertDesc_mem (x : DeviceType × Nat) (l : List (DeviceType × Nat))
    (y : DeviceType × Nat) (h : y ∈ insertDesc x l) : y = x ∨ y ∈ l := by
  induction l with
  | nil =>
      simp only [insertDesc, List.mem_singleton] at h
      exact Or.inl h
  | cons hd tl ih =>
      simp only [insertDesc] at h
      split at h
      · exact List.mem_cons.mp h
      · rcases List.mem_cons.mp h with h2 | h2
        · exact Or.inr (h2 ▸ List.mem_cons_self hd tl)
        · rcases ih h2 with h3 | h3
          · exact Or.inl h3
          · exact Or.inr (List.mem_cons_of_mem hd h3)

theorem sortDesc_mem (l : List (DeviceType × Nat)) (y : DeviceType × Nat)
    (h : y ∈ sortDesc l) : y ∈ l := by
  induction l with
  | nil => simp [sortDesc] at h
  | cons hd tl ih =>
      simp only [sortDesc] at h
      rcases insertDesc_mem hd (sortDesc tl) y h with h2 | h2
      · simp [h2]
      · exact List.mem_cons_of_mem hd (ih h2)

theorem insertDesc_length (x : DeviceType × Nat) (l : List (DeviceType × Nat)) :
    (insertDesc x l).length = l.length + 1 := by
  induction l with
  | nil => rfl
  | cons hd tl ih =>
      simp only [insertDesc]
      split <;> simp [ih]

theorem sortDesc_length (l : List (DeviceType × Nat)) :
    (sortDesc l).length = l.length := by
  induction l with
  | nil => rfl
  | cons hd tl ih => simp [sortDesc, insertDesc_length, ih]

theorem sortDesc_head_max (l : List (DeviceType × Nat)) (top : DeviceType × Nat)
    (rest : List (DeviceType × Nat)) (hs : sortDesc l = top :: rest)
    (y : DeviceType × Nat) (hy : y ∈ l) : y.2 ≤ top.2 := by
  induction l generalizing top rest with
  | nil => simp at hy
  | cons hd tl ih =>
      simp only [sortDesc] at hs
      rcases h2 : sortDesc tl with _ | ⟨t2, r2⟩
      · have htl : tl = [] := by
          have hlen := sortDesc_length tl
          rw [h2] at hlen
          exact List.eq_nil_of_length_eq_zero hlen.symm
        subst htl
        rw [h2] at hs
        simp only [insertDesc] at hs
        have hhd : hd = top := ((List.cons.injEq _ _ _ _).mp hs).1
        rcases List.mem_cons.mp hy with h3 | h3
        · rw [h3, hhd]
        · simp at h3
      · rw [h2] at hs
        simp only [insertDesc] at hs
        split at hs
        · rename_i hgt
          have hhd : hd = top := ((List.cons.injEq _ _ _ _).mp hs).1
          rcases List.mem_cons.mp hy with h3 | h3
          · rw [h3, hhd]
          · have hle := ih t2 r2 h2 h3
            rw [← hhd]
            omega
        · rename_i hgt
          have ht2 : t2 = top := ((List.cons.injEq _ _ _ _).mp hs).1
          rcases List.mem_cons.mp hy with h3 | h3
          · rw [h3, ← ht2]
            omega
          · have hle := ih t2 r2 h2 h3
            rw [← ht2]
            exact hle

theorem ciscoFamily_iff_priority (dt : DeviceType) :
    ciscoFamily dt = true ↔ parserPriority dt = 3 := by
  cases dt <;> decide

theorem parserPriority_le_three (dt : DeviceType) : parserPriority dt ≤ 3 := by
  cases dt <;> decide

/-- C10: whenever a Cisco-family parser and the generic-syslog parser
both report `can_parse` true for an input, auto-detection over the
registered parsers returns some parser and it is a Cisco-family one
(tier 3), never the generic-syslog fallback (tier 1). -/
theorem C10_auto_detect_prefers_cisco (reg : Registry) (raw : String)
    (dtC : DeviceType) (cpC cpG : String → Bool)
    (hciscoMem : (dtC, cpC) ∈ reg) (hciscoFam : ciscoFamily dtC = true)
    (hciscoCan : cpC raw = true)
    (hgenMem : (DeviceType.GenericSyslog, cpG) ∈ reg) (hgenCan : cpG raw = true) :
    ∃ dtR, auto_detect reg raw = some dtR ∧ ciscoFamily dtR = true ∧
      dtR ≠ .GenericSyslog := by
  have hcin : (dtC, parserPriority dtC) ∈ reg.filterMap (fun e =>
      if e.2 raw then some (e.1, parserPriority e.1) else none) := by
    refine List.mem_filterMap.mpr ⟨(dtC, cpC), hciscoMem, ?_⟩
    simp [hciscoCan]
  rcases hs : sortDesc (reg.filterMap (fun e =>
      if e.2 raw then some (e.1, parserPriority e.1) else none)) with _ | ⟨top, rest⟩
  · have h1 := sortDesc_length (reg.filterMap (fun e =>
      if e.2 raw then some (e.1, parserPriority e.1) else none))
    rw [hs] at h1
    simp at h1
    have h2 := List.length_pos_of_mem hcin
    omega
  · have htopmem : top ∈ reg.filterMap (fun e =>
        if e.2 raw then some (e.1, parserPriority e.1) else none) := by
      apply sortDesc_mem
      rw [hs]
      exact List.mem_cons_self top rest
    obtain ⟨a, haMem, haEq⟩ := List.mem_filterMap.mp htopmem
    have haCan : a.2 raw = true := by
      by_contra hfa
      simp [hfa] at haEq
    rw [if_pos haCan] at haEq
    have hpair : (a.1, parserPriority a.1) = top := Option.some.inj haEq
    have htop1 : top.1 = a.1 := by rw [← hpair]
    have htop2 : top.2 = parserPriority a.1 := by rw [← hpair]
    have hmax := sortDesc_head_max _ top rest hs (dtC, parserPriority dtC) hcin
    have hpc : parserPriority dtC = 3 := (ciscoFamily_iff_priority dtC).mp hciscoFam
    have hple := parserPriority_le_three a.1
    have htop3 : parserPriority a.1 = 3 := by
      simp only [hpc, htop2] at hmax
      omega
    have hfam : ciscoFamily top.1 = true := by
      rw [htop1]
      exact (ciscoFamily_iff_priority a.1).mpr htop3
    refine ⟨top.1, ?_, hfam, ?_⟩
    · have hauto : auto_detect reg raw =
          (match sortDesc (reg.filterMap (fun e =>
              if e.2 raw then some (e.1, parserPriority e.1) else none)) with
            | [] => none
            | t :: _ => createParser reg t.1) := rfl
      rw [hs] at hauto
      rw [hauto]
      show createParser reg top.1 = some top.1
      unfold createParser
      have hfind : (reg.find? (fun e => e.1 = top.1)).isSome = true := by
        rw [List.find?_isSome]
        exact ⟨a, haMem, by simp [htop1]⟩
      rw [if_pos hfind]
    · intro hEq
      rw [hEq] at hfam
      exact absurd hfam (by decide)

/-- C10 witness: with the native Cisco IOS and generic-syslog parsers
registered and an input both accept, auto-detection picks a
Cisco-family parser. -/
theorem C10_auto_detect_prefers_cisco_witness :
    ∃ dtR, auto_detect
        [(DeviceType.CiscoIOS, ciscoIOSCanParse),
         (DeviceType.GenericSyslog, genericSyslogCanParse)]
        "<34>%SYS-5-CONFIG_I: ok" = some dtR ∧
      ciscoFamily dtR = true ∧ dtR ≠ .GenericSyslog :=
  C10_auto_detect_prefers_cisco _ _ DeviceType.CiscoIOS ciscoIOSCanParse
    genericSyslogCanParse (List.mem_cons_self _ _) rfl (by decide)
    (List.mem_cons_of_mem _ (List.mem_cons_self _ _)) (by decide)
